import Mathlib

/-!
Verification development for a small three-phase compiler pipeline
(lexer, recursive-descent parser, semantic analyzer, IR generator,
constant-folding optimizer, assembly code generator).

Each Python stage is shallowly embedded as executable Lean definitions:
  * pure methods become Lean functions;
  * mutable object state (parser position, symbol tables, counters)
    becomes explicit state records threaded through the functions;
  * Python exceptions become an `Except PyErr` result;
  * unbounded loops and recursion are driven by an explicit fuel
    parameter (`none` = the computation did not finish within the given
    fuel; a result that is `none` for every fuel models divergence).

Apostrophe and brace characters inside diagnostic message strings are
built via small helpers so that every message string matches the Python
source text exactly.
-/

/-- Single apostrophe character, used to build diagnostic messages. -/
def apos : String := (Char.ofNat 39).toString

/-- Wraps a string in single quotes, as the Python f-strings do. -/
def quo (s : String) : String := apos ++ s ++ apos

/-- Token produced by `lexer.tokenize`: `Token(type, value, line)`. -/
structure Token where
  type : String
  value : String
  line : Nat
deriving DecidableEq, Inhabited

/-- Character class of the regex `\d` (ASCII digits). -/
def isDig (c : Char) : Bool := c.isDigit

/-- Character class `[A-Za-z_]` opening an identifier. -/
def isIdentStart (c : Char) : Bool := c.isAlpha || c == '_'

/-- Character class `\w` (letters, digits, underscore). -/
def isWordChar (c : Char) : Bool := c.isAlphanum || c == '_'

/-- Keyword set of `lexer.KEYWORDS`. -/
def keywords : List String := ["if", "else", "int", "float"]

/-- Lexical-error message of `lexer.tokenize` for a MISMATCH character. -/
def lexErrMsg (c : Char) (ln : Nat) : String :=
  "Lexical Error: Unexpected character " ++ quo c.toString ++ " at line " ++ Nat.repr ln

/--
Core scanning loop of `lexer.tokenize`.  The Python master regex tries
the alternatives NUMBER, ID, OP_REL, OP_ASSIGN, OP_ARITH, DELIM,
NEWLINE, SKIP, MISMATCH in that order at each position (Python `re`
alternation is first-match, each alternative greedy), which this
function mirrors.  Note that because OP_ARITH precedes SKIP, the
comment alternative `//.*` of SKIP is unreachable in the Python code
(a `/` is always taken by OP_ARITH first), so SKIP here only covers
runs of spaces and tabs.  Fuel is the remaining input length; every
step consumes at least one character, so fuel `length + 1` always
suffices.  Returns (tokens, errors, final line number).
-/
def tokenizeCore : Nat → List Char → Nat → (List Token × List String × Nat)
  | 0, _, ln => ([], [], ln)
  | _, [], ln => ([], [], ln)
  | fuel+1, c :: cs, ln =>
    if isDig c then
      let ds := (c :: cs).takeWhile isDig
      let rest := (c :: cs).dropWhile isDig
      match rest with
      | '.' :: r2 =>
        if (r2.headD ' ').isDigit then
          let fs := r2.takeWhile isDig
          let r3 := r2.dropWhile isDig
          let (ts, es, l) := tokenizeCore fuel r3 ln
          (⟨"NUMBER", String.mk (ds ++ '.' :: fs), ln⟩ :: ts, es, l)
        else
          let (ts, es, l) := tokenizeCore fuel rest ln
          (⟨"NUMBER", String.mk ds, ln⟩ :: ts, es, l)
      | _ =>
        let (ts, es, l) := tokenizeCore fuel rest ln
        (⟨"NUMBER", String.mk ds, ln⟩ :: ts, es, l)
    else if isIdentStart c then
      let ds := c :: cs.takeWhile isWordChar
      let rest := cs.dropWhile isWordChar
      let v := String.mk ds
      let k : String := if keywords.contains v then "KEYWORD" else "ID"
      let (ts, es, l) := tokenizeCore fuel rest ln
      (⟨k, v, ln⟩ :: ts, es, l)
    else if c == '=' && cs.headD ' ' == '=' then
      let (ts, es, l) := tokenizeCore fuel (cs.drop 1) ln
      (⟨"OP_REL", "==", ln⟩ :: ts, es, l)
    else if c == '!' && cs.headD ' ' == '=' then
      let (ts, es, l) := tokenizeCore fuel (cs.drop 1) ln
      (⟨"OP_REL", "!=", ln⟩ :: ts, es, l)
    else if c == '<' && cs.headD ' ' == '=' then
      let (ts, es, l) := tokenizeCore fuel (cs.drop 1) ln
      (⟨"OP_REL", "<=", ln⟩ :: ts, es, l)
    else if c == '>' && cs.headD ' ' == '=' then
      let (ts, es, l) := tokenizeCore fuel (cs.drop 1) ln
      (⟨"OP_REL", ">=", ln⟩ :: ts, es, l)
    else if c == '<' || c == '>' then
      let (ts, es, l) := tokenizeCore fuel cs ln
      (⟨"OP_REL", c.toString, ln⟩ :: ts, es, l)
    else if c == '=' then
      let (ts, es, l) := tokenizeCore fuel cs ln
      (⟨"OP_ASSIGN", "=", ln⟩ :: ts, es, l)
    else if c == '+' || c == '-' || c == '*' || c == '/' then
      let (ts, es, l) := tokenizeCore fuel cs ln
      (⟨"OP_ARITH", c.toString, ln⟩ :: ts, es, l)
    else if c == '(' || c == ')' || c == '{' || c == '}' || c == ';' || c == ',' then
      let (ts, es, l) := tokenizeCore fuel cs ln
      (⟨"DELIM", c.toString, ln⟩ :: ts, es, l)
    else if c == '\n' then
      tokenizeCore fuel cs (ln + 1)
    else if c == ' ' || c == '\t' then
      tokenizeCore fuel (cs.dropWhile (fun d => d == ' ' || d == '\t')) ln
    else
      let (ts, es, l) := tokenizeCore fuel cs ln
      (ts, lexErrMsg c ln :: es, l)

/-- Model of `lexer.tokenize`: scans the source and appends the EOF token. -/
def tokenize (code : String) : List Token × List String :=
  let (ts, es, l) := tokenizeCore (code.data.length + 1) code.data 1
  (ts ++ [⟨"EOF", "EOF", l⟩], es)

/--
AST node.  The repository has two incompatible AST vocabularies for the
same Python class names: the classes the parser actually constructs
(`parser.py`: `Variable`, `Type`, `Assign(left, op, right)`,
`VarDecl(type_node, var_node, assign_node)`, `Block.statements`) and
the attribute shapes the semantic analyzer and IR generator expect
(`RelOp`, `Id`, `Assign(var_name, value)`,
`VarDecl(var_type, var_name, value)`, `Block.children`).  Since Python
dispatch is by class-name string and attribute access is dynamic, both
shapes are constructors of one closed type here; constructors suffixed
`P` are the parser-built shapes, constructors suffixed `S` are the
analyzer/IR shapes.  `className` returns the Python class name.
-/
inductive Node where
  | number (token : Token)
  | variableP (token : Token)
  | typeP (token : Token)
  | idNode (value : String) (line : Nat)
  | binOp (left : Node) (op : Token) (right : Node)
  | relOp (left : Node) (op : Token) (right : Node)
  | assignP (left : Node) (op : Token) (right : Node)
  | assignS (var_name : Token) (value : Node)
  | varDeclP (type_node : Node) (var_node : Node) (assign_node : Option Node)
  | varDeclS (var_type : Token) (var_name : Token) (value : Option Node)
  | ifNode (condition : Node) (if_block : Node) (else_block : Option Node)
  | blockP (statements : List Node)
  | blockS (children : List Node)
  | program (children : List Node)

/-- Python class name of a node (`node.__class__.__name__`). -/
def Node.className : Node → String
  | .number _ => "Number"
  | .variableP _ => "Variable"
  | .typeP _ => "Type"
  | .idNode _ _ => "Id"
  | .binOp _ _ _ => "BinOp"
  | .relOp _ _ _ => "RelOp"
  | .assignP _ _ _ => "Assign"
  | .assignS _ _ => "Assign"
  | .varDeclP _ _ _ => "VarDecl"
  | .varDeclS _ _ _ => "VarDecl"
  | .ifNode _ _ _ => "If"
  | .blockP _ => "Block"
  | .blockS _ => "Block"
  | .program _ => "Program"

/-- Class names handled by the dispatch in `SemanticAnalyzer.visit` and
`IRGenerator.visit`. -/
def handledNames : List String :=
  ["Program", "VarDecl", "Assign", "If", "Block", "BinOp", "RelOp", "Number", "Id"]

/-- Python exceptions that the embedded stages can raise. -/
inductive PyErr where
  | semErr (message : String) (line : Nat)
  | typeErr (message : String)
  | attrErr (message : String)
  | keyErr (message : String)
  | indexErr (message : String)
deriving DecidableEq

/-- Message of `SymbolTable.declare` for a duplicate declaration. -/
def dupMsg (name : String) : String :=
  "Variable " ++ quo name ++ " already declared in this scope."

/-- Message of `SymbolTable.lookup` for an undeclared variable. -/
def undeclMsg (name : String) : String :=
  "Variable " ++ quo name ++ " not declared."

/--
Symbol table of the semantic analyzer: a stack of scopes, each scope a
mapping from variable name to declared type.  The Python list grows at
the end and `scopes[-1]` is the current scope; here the HEAD of the
list is the innermost scope (the Lean list is the reverse of the
Python list), so `enter_scope` conses, `lookup` walks the list in
order (= Python `reversed(self.scopes)`).
-/
def SymTab : Type := List (List (String × String))

/-- Model of `SymbolTable.enter_scope`. -/
def SymbolTable.enter_scope (tbl : SymTab) : SymTab := [] :: tbl

/-- Model of `SymbolTable.exit_scope` (refuses to pop the last scope). -/
def SymbolTable.exit_scope (tbl : SymTab) : SymTab :=
  if 1 < tbl.length then tbl.tail else tbl

/-- Model of `SymbolTable.declare`: raises `SemanticError` when the name
is already in the current (innermost) scope, else inserts it there.
An empty scope stack (impossible through the analyzer) is an
IndexError in Python. -/
def SymbolTable.declare (tbl : SymTab) (name ty : String) (line : Nat) :
    Except PyErr SymTab :=
  match tbl with
  | [] => .error (.indexErr ("list index out of range"))
  | scope :: rest =>
    if scope.any (fun p => p.1 == name) then .error (.semErr (dupMsg name) line)
    else .ok (((name, ty) :: scope) :: rest)

/-- Model of `SymbolTable.lookup`: searches inner to outer scope. -/
def SymbolTable.lookup (tbl : SymTab) (name : String) (line : Nat) :
    Except PyErr String :=
  match tbl with
  | [] => .error (.semErr (undeclMsg name) line)
  | scope :: rest =>
    match scope.find? (fun p => p.1 == name) with
    | some p => .ok p.2
    | none => SymbolTable.lookup rest name line

/-- Argument of a visitor call: a single node, or the children list of a
`Program`/`Block` being visited in order. -/
inductive NodeCall where
  | one (n : Node)
  | many (l : List Node)

/-- Attribute error raised when a handled visitor touches a
parser-shaped node that lacks the expected attribute. -/
def noAttrMsg (cls attr : String) : String :=
  quo cls ++ " object has no attribute " ++ quo attr

/-- TypeError message of the class-name dispatch. -/
def unknownNodeMsg (cls : String) : String := "Unknown node type: " ++ cls

/-- Reads `node.op.line` as `SemanticAnalyzer.visit_If` does in its
error branch; nodes without an `op` attribute raise AttributeError. -/
def Node.opLine : Node → Except PyErr Nat
  | .binOp _ op _ => .ok op.line
  | .relOp _ op _ => .ok op.line
  | .assignP _ op _ => .ok op.line
  | n => .error (.attrErr (noAttrMsg n.className ("op")))

/-- Type-mismatch message shared by `visit_VarDecl` and `visit_Assign`. -/
def assignTypeMsg (valueType name varType : String) : String :=
  "Cannot assign type " ++ quo valueType ++ " to variable " ++ quo name ++
  " of type " ++ quo varType ++ "."

/-- Non-boolean-condition message of `visit_If`. -/
def ifCondMsg (got : String) : String :=
  "If condition must be a boolean expression (e.g., a > b), but got " ++ quo got ++ "."

/-- Operand-type message of `visit_BinOp`. -/
def binOpMsg (op lt rt : String) : String :=
  "Arithmetic operation " ++ quo op ++ " can only be used on numbers, not " ++
  quo lt ++ " and " ++ quo rt ++ "."

/-- Operand-type message of `visit_RelOp`. -/
def relOpMsg (op lt rt : String) : String :=
  "Relational operation " ++ quo op ++ " can only be used on numbers, not " ++
  quo lt ++ " and " ++ quo rt ++ "."

/--
Model of `SemanticAnalyzer.visit` (with the straight-line visitors
`visit_Program`, `visit_Block`, `visit_VarDecl`, `visit_Assign`,
`visit_If`, `visit_BinOp`, `visit_RelOp`, `visit_Number`, `visit_Id`
inlined at their dispatch arm).  Returns the inferred type string and
the updated symbol table; Python exceptions abort via `.error`.
`NodeCall.many` is the sequential child visiting of
`visit_Program`/`visit_Block`.  `none` means out of fuel.
-/
def semVisit : Nat → NodeCall → SymTab → Option (Except PyErr (String × SymTab))
  | 0, _, _ => none
  | _+1, .many [], tbl => some (.ok ("void", tbl))
  | fuel+1, .many (c :: cs), tbl =>
    match semVisit fuel (.one c) tbl with
    | none => none
    | some (.error e) => some (.error e)
    | some (.ok (_, tbl1)) => semVisit fuel (.many cs) tbl1
  | fuel+1, .one nd, tbl =>
    match nd with
    | .program cs =>
      match semVisit fuel (.many cs) tbl with
      | none => none
      | some (.error e) => some (.error e)
      | some (.ok (_, tbl1)) => some (.ok ("void", tbl1))
    | .blockS cs =>
      match semVisit fuel (.many cs) (SymbolTable.enter_scope tbl) with
      | none => none
      | some (.error e) => some (.error e)
      | some (.ok (_, tbl1)) => some (.ok ("void", SymbolTable.exit_scope tbl1))
    | .blockP _ => some (.error (.attrErr (noAttrMsg ("Block") ("children"))))
    | .varDeclS vt vn value =>
      match SymbolTable.declare tbl vn.value vt.value vn.line with
      | .error e => some (.error e)
      | .ok tbl1 =>
        match value with
        | none => some (.ok ("void", tbl1))
        | some v =>
          match semVisit fuel (.one v) tbl1 with
          | none => none
          | some (.error e) => some (.error e)
          | some (.ok (vty, tbl2)) =>
            if vt.value ≠ vty then
              some (.error (.semErr (assignTypeMsg vty vn.value vt.value) vn.line))
            else some (.ok ("void", tbl2))
    | .varDeclP _ _ _ => some (.error (.attrErr (noAttrMsg ("VarDecl") ("var_name"))))
    | .assignS vn value =>
      match SymbolTable.lookup tbl vn.value vn.line with
      | .error e => some (.error e)
      | .ok vty =>
        match semVisit fuel (.one value) tbl with
        | none => none
        | some (.error e) => some (.error e)
        | some (.ok (valty, tbl1)) =>
          if vty ≠ valty then
            some (.error (.semErr (assignTypeMsg valty vn.value vty) vn.line))
          else some (.ok ("void", tbl1))
    | .assignP _ _ _ => some (.error (.attrErr (noAttrMsg ("Assign") ("var_name"))))
    | .ifNode cond tb eb =>
      match semVisit fuel (.one cond) tbl with
      | none => none
      | some (.error e) => some (.error e)
      | some (.ok (ct, tbl1)) =>
        if ct ≠ "bool" then
          match cond.opLine with
          | .error e => some (.error e)
          | .ok l => some (.error (.semErr (ifCondMsg ct) l))
        else
          match semVisit fuel (.one tb) tbl1 with
          | none => none
          | some (.error e) => some (.error e)
          | some (.ok (_, tbl2)) =>
            match eb with
            | none => some (.ok ("void", tbl2))
            | some e =>
              match semVisit fuel (.one e) tbl2 with
              | none => none
              | some (.error er) => some (.error er)
              | some (.ok (_, tbl3)) => some (.ok ("void", tbl3))
    | .binOp l op r =>
      match semVisit fuel (.one l) tbl with
      | none => none
      | some (.error e) => some (.error e)
      | some (.ok (lt, tbl1)) =>
        match semVisit fuel (.one r) tbl1 with
        | none => none
        | some (.error e) => some (.error e)
        | some (.ok (rt, tbl2)) =>
          if ¬((lt = "int" ∨ lt = "float") ∧ (rt = "int" ∨ rt = "float")) then
            some (.error (.semErr (binOpMsg op.value lt rt) op.line))
          else if lt = "float" ∨ rt = "float" then some (.ok ("float", tbl2))
          else some (.ok ("int", tbl2))
    | .relOp l op r =>
      match semVisit fuel (.one l) tbl with
      | none => none
      | some (.error e) => some (.error e)
      | some (.ok (lt, tbl1)) =>
        match semVisit fuel (.one r) tbl1 with
        | none => none
        | some (.error e) => some (.error e)
        | some (.ok (rt, tbl2)) =>
          if ¬((lt = "int" ∨ lt = "float") ∧ (rt = "int" ∨ rt = "float")) then
            some (.error (.semErr (relOpMsg op.value lt rt) op.line))
          else some (.ok ("bool", tbl2))
    | .number tok =>
      some (.ok (if tok.value.data.any (fun c => c == '.') then "float" else "int", tbl))
    | .idNode v l =>
      match SymbolTable.lookup tbl v l with
      | .error e => some (.error e)
      | .ok ty => some (.ok (ty, tbl))
    | .variableP _ => some (.error (.typeErr (unknownNodeMsg ("Variable"))))
    | .typeP _ => some (.error (.typeErr (unknownNodeMsg ("Type"))))

/-- Formatted string of a raised `SemanticError` (its `__str__`). -/
def semErrStr (message : String) (line : Nat) : String :=
  "Semantic Error on line " ++ Nat.repr line ++ ": " ++ message

/--
Model of `SemanticAnalyzer.analyze(node, errors)`: visits with a fresh
symbol table, catches only `SemanticError` (appending its string to the
error list); any other exception (TypeError, AttributeError)
propagates.  Returns the "void" result type and the error list.
-/
def SemanticAnalyzer.analyze (fuel : Nat) (node : Node) (errors : List String) :
    Option (Except PyErr (String × List String)) :=
  match semVisit fuel (.one node) [[]] with
  | none => none
  | some (.ok _) => some (.ok ("void", errors))
  | some (.error (.semErr m l)) => some (.ok ("void", errors ++ [semErrStr m l]))
  | some (.error e) => some (.error e)

/--
One emitted IR line of `IRGenerator`.  The Python generator appends
f-strings; each constructor corresponds to one `ir_code.append` site,
and `IRLine.render` recovers the exact string.  `binop` is the shared
format of `visit_BinOp` and `visit_RelOp` (f"{t} = {l} {op} {r}").
-/
inductive IRLine where
  | declare (ty name : String)
  | assign (dst src : String)
  | binop (dst l op r : String)
  | ifFalse (cond label : String)
  | goto (label : String)
  | label (name : String)
deriving DecidableEq

/-- The exact f-string text of an emitted IR line. -/
def IRLine.render : IRLine → String
  | .declare ty name => "DECLARE " ++ ty ++ " " ++ name
  | .assign dst src => dst ++ " = " ++ src
  | .binop dst l op r => dst ++ " = " ++ l ++ " " ++ op ++ " " ++ r
  | .ifFalse cond lbl => "IF_FALSE " ++ cond ++ " GOTO " ++ lbl
  | .goto lbl => "GOTO " ++ lbl
  | .label lbl => "LABEL " ++ lbl

/-- Mutable state of an `IRGenerator` instance. -/
structure Gen where
  ir : List IRLine
  temp_count : Nat
  label_count : Nat
deriving DecidableEq

/-- Temporary name minted by `IRGenerator.new_temp` (after the bump). -/
def mkTemp (n : Nat) : String := "t" ++ Nat.repr n

/-- Label name minted by `IRGenerator.new_label` (after the bump). -/
def mkLabel (n : Nat) : String := "L" ++ Nat.repr n

/-- Python str-formatting of a visitor result that may be `None`. -/
def fmtOpt : Option String → String
  | some s => s
  | none => "None"

/--
Model of `IRGenerator.visit` (with `visit_Program`, `visit_VarDecl`,
`visit_Assign`, `visit_If`, `visit_Block`, `visit_BinOp`,
`visit_RelOp`, `visit_Number`, `visit_Id` inlined at their dispatch
arm).  Expression visitors return `some operand`; statement visitors
return `none` (Python `None`).  `NodeCall.many` is the sequential
child visiting of `visit_Program`/`visit_Block`.  The outer `none`
means out of fuel.
-/
def irF : Nat → NodeCall → Gen → Option (Except PyErr (Option String × Gen))
  | 0, _, _ => none
  | _+1, .many [], g => some (.ok (none, g))
  | fuel+1, .many (c :: cs), g =>
    match irF fuel (.one c) g with
    | none => none
    | some (.error e) => some (.error e)
    | some (.ok (_, g1)) => irF fuel (.many cs) g1
  | fuel+1, .one nd, g =>
    match nd with
    | .program cs =>
      match irF fuel (.many cs) g with
      | none => none
      | some (.error e) => some (.error e)
      | some (.ok (_, g1)) => some (.ok (none, g1))
    | .varDeclS vt vn value =>
      let g1 := { g with ir := g.ir ++ [.declare vt.value vn.value] }
      match value with
      | none => some (.ok (none, g1))
      | some v =>
        match irF fuel (.one v) g1 with
        | none => none
        | some (.error e) => some (.error e)
        | some (.ok (src, g2)) =>
          some (.ok (none, { g2 with ir := g2.ir ++ [.assign vn.value (fmtOpt src)] }))
    | .varDeclP _ _ _ => some (.error (.attrErr (noAttrMsg ("VarDecl") ("var_type"))))
    | .assignS vn value =>
      match irF fuel (.one value) g with
      | none => none
      | some (.error e) => some (.error e)
      | some (.ok (src, g1)) =>
        some (.ok (none, { g1 with ir := g1.ir ++ [.assign vn.value (fmtOpt src)] }))
    | .assignP _ _ _ => some (.error (.attrErr (noAttrMsg ("Assign") ("var_name"))))
    | .ifNode cond tb eb =>
      match irF fuel (.one cond) g with
      | none => none
      | some (.error e) => some (.error e)
      | some (.ok (cv, g1)) =>
        let endL := mkLabel (g1.label_count + 1)
        let g2 := { g1 with label_count := g1.label_count + 1 }
        match eb with
        | some els =>
          let elseL := mkLabel (g2.label_count + 1)
          let g3 := { g2 with label_count := g2.label_count + 1 }
          let g4 := { g3 with ir := g3.ir ++ [.ifFalse (fmtOpt cv) elseL] }
          match irF fuel (.one tb) g4 with
          | none => none
          | some (.error e) => some (.error e)
          | some (.ok (_, g5)) =>
            let g6 := { g5 with ir := g5.ir ++ [.goto endL, .label elseL] }
            match irF fuel (.one els) g6 with
            | none => none
            | some (.error e) => some (.error e)
            | some (.ok (_, g7)) =>
              some (.ok (none, { g7 with ir := g7.ir ++ [.label endL] }))
        | none =>
          let g3 := { g2 with ir := g2.ir ++ [.ifFalse (fmtOpt cv) endL] }
          match irF fuel (.one tb) g3 with
          | none => none
          | some (.error e) => some (.error e)
          | some (.ok (_, g4)) =>
            some (.ok (none, { g4 with ir := g4.ir ++ [.label endL] }))
    | .blockS cs =>
      match irF fuel (.many cs) g with
      | none => none
      | some (.error e) => some (.error e)
      | some (.ok (_, g1)) => some (.ok (none, g1))
    | .blockP _ => some (.error (.attrErr (noAttrMsg ("Block") ("children"))))
    | .binOp l op r =>
      match irF fuel (.one l) g with
      | none => none
      | some (.error e) => some (.error e)
      | some (.ok (ls, g1)) =>
        match irF fuel (.one r) g1 with
        | none => none
        | some (.error e) => some (.error e)
        | some (.ok (rs, g2)) =>
          let t := mkTemp (g2.temp_count + 1)
          let g3 := { g2 with temp_count := g2.temp_count + 1
                              ir := g2.ir ++ [.binop t (fmtOpt ls) op.value (fmtOpt rs)] }
          some (.ok (some t, g3))
    | .relOp l op r =>
      match irF fuel (.one l) g with
      | none => none
      | some (.error e) => some (.error e)
      | some (.ok (ls, g1)) =>
        match irF fuel (.one r) g1 with
        | none => none
        | some (.error e) => some (.error e)
        | some (.ok (rs, g2)) =>
          let t := mkTemp (g2.temp_count + 1)
          let g3 := { g2 with temp_count := g2.temp_count + 1
                              ir := g2.ir ++ [.binop t (fmtOpt ls) op.value (fmtOpt rs)] }
          some (.ok (some t, g3))
    | .number tok => some (.ok (some tok.value, g))
    | .idNode v _ => some (.ok (some v, g))
    | .variableP _ => some (.error (.typeErr (unknownNodeMsg ("Variable"))))
    | .typeP _ => some (.error (.typeErr (unknownNodeMsg ("Type"))))

/-- Model of `IRGenerator.generate` on a freshly constructed generator
(as `compiler.run_pipeline` constructs one): resets `ir_code`, visits
the root and returns the IR sequence. -/
def IRGenerator.generate (fuel : Nat) (node : Node) : Option (Except PyErr (List IRLine)) :=
  match irF fuel (.one node) ⟨[], 0, 0⟩ with
  | none => none
  | some (.error e) => some (.error e)
  | some (.ok (_, g)) => some (.ok g.ir)

/-- Numeric value of a list of ASCII digit characters. -/
def digitsVal (ds : List Char) : Nat :=
  ds.foldl (fun a c => 10 * a + (c.toNat - 48)) 0

/--
Exact-fraction value `numerator / denominator` modeling a Python
float.  The embedding models the Python float arithmetic of
`Optimizer.constant_folding` by exact (unnormalized) fraction
arithmetic, which coincides with IEEE double arithmetic on every value
the claims exercise.  The denominator is always positive by
construction.
-/
abbrev PyF : Type := Int × Nat

/--
Model of Python `float(s)` restricted to plain decimal literals
(optional sign, digits, optional fractional part), which are the only
numeric operand strings the IR can contain.  Exotic `float()` inputs
(exponents, inf, nan, surrounding whitespace) are out of scope and
rejected here.
-/
def pyFloat (s : String) : Option PyF :=
  let (neg, cs) : Bool × List Char :=
    match s.data with
    | '-' :: rest => (true, rest)
    | '+' :: rest => (false, rest)
    | l => (false, l)
  let ipart := cs.takeWhile isDig
  let rest := cs.dropWhile isDig
  let finish : Nat → Nat → Option PyF := fun num den =>
    some (if neg then (-(num : Int), den) else ((num : Int), den))
  match rest with
  | [] => if ipart.isEmpty then none else finish (digitsVal ipart) 1
  | '.' :: r2 =>
    let fpart := r2.takeWhile isDig
    let r3 := r2.dropWhile isDig
    if ¬r3.isEmpty then none
    else if ipart.isEmpty ∧ fpart.isEmpty then none
    else finish (digitsVal ipart * 10 ^ fpart.length + digitsVal fpart) (10 ^ fpart.length)
  | _ => none

/-- Decimal digits of the fractional part `r / d` (with `r < d`),
computed like Python float formatting for terminating decimals; a
non-terminating expansion is truncated at the fuel bound (such values
never arise from the claims). -/
def fracDigits : Nat → Nat → Nat → List Char
  | 0, _, _ => []
  | fuel+1, r, d =>
    if r == 0 then []
    else (Nat.digitChar (10 * r / d)) :: fracDigits fuel (10 * r % d) d

/--
Model of the Python rendering in `Optimizer.constant_folding`:
`new_val = int(new_val) if new_val == int(new_val) else new_val`
followed by `str(new_val)`.  A mathematically integral value is
rendered without a fractional part; otherwise the decimal expansion is
rendered (exact for terminating decimals, matching `str` of an exactly
representable float).
-/
def renderVal (v : PyF) : String :=
  if v.1 % (v.2 : Int) == 0 then (v.1 / (v.2 : Int)).repr
  else
    let sgn : String := if v.1 < 0 then "-" else ""
    let n := v.1.natAbs
    sgn ++ Nat.repr (n / v.2) ++ "." ++ String.mk (fracDigits 64 (n % v.2) v.2)

/-- IR tuple `(op, arg1, arg2, result)` consumed by the optimizer
(`for op, arg1, arg2, result in self.ir_code`); `arg1`/`arg2` are a
string or Python `None`. -/
structure IRTup where
  op : String
  arg1 : Option String
  arg2 : Option String
  result : String
deriving DecidableEq

/-- Model of `Optimizer.is_numeric` (None is not numeric; otherwise
the string must parse as a float). -/
def Optimizer.is_numeric : Option String → Bool
  | none => false
  | some s => (pyFloat s).isSome

/-- Arithmetic of the fold: ADD, SUB, MUL, and DIV with the
division-by-zero fallback to 0 (`val1 / val2 if val2 != 0 else 0`). -/
def applyArith (op : String) (v1 v2 : PyF) : PyF :=
  if op == "ADD" then (v1.1 * v2.2 + v2.1 * v1.2, v1.2 * v2.2)
  else if op == "SUB" then (v1.1 * v2.2 - v2.1 * v1.2, v1.2 * v2.2)
  else if op == "MUL" then (v1.1 * v2.1, v1.2 * v2.2)
  else if v2.1 ≠ 0 then
    (if 0 ≤ v2.1 then v1.1 * v2.2 else -(v1.1 * v2.2), v1.2 * v2.1.natAbs)
  else (0, 1)

/-- Per-instruction transformation of `Optimizer.constant_folding`:
an arithmetic instruction with two numeric-literal operands becomes
an ASSIGN tuple of the rendered value and the same destination; anything else passes through
unchanged. -/
def Optimizer.foldTup (t : IRTup) : IRTup :=
  if (t.op == "ADD" || t.op == "SUB" || t.op == "MUL" || t.op == "DIV") &&
      Optimizer.is_numeric t.arg1 && Optimizer.is_numeric t.arg2 then
    let v1 := (pyFloat (t.arg1.getD (""))).getD (0, 1)
    let v2 := (pyFloat (t.arg2.getD (""))).getD (0, 1)
    ⟨"ASSIGN", some (renderVal (applyArith t.op v1 v2)), none, t.result⟩
  else t

/-- Model of `Optimizer.constant_folding`: one linear pass over the IR. -/
def Optimizer.constant_folding (ir : List IRTup) : List IRTup :=
  ir.map Optimizer.foldTup

/-- Model of `Optimizer.optimize`: runs the single constant-folding pass. -/
def Optimizer.optimize (ir : List IRTup) : List IRTup :=
  Optimizer.constant_folding ir

/-- Association-list lookup modeling a Python dict read. -/
def dictFind (d : List (String × α)) (k : String) : Option α :=
  (d.find? (fun p => p.1 == k)).map (fun p => p.2)

/-- Association-list write modeling a Python dict assignment. -/
def dictSet (d : List (String × α)) (k : String) (v : α) : List (String × α) :=
  if d.any (fun p => p.1 == k) then
    d.map (fun p => if p.1 == k then (k, v) else p)
  else d ++ [(k, v)]

/-- Worker of `pySplit`: consumes the characters, accumulating the
current (reversed) word. -/
def pySplitGo : List Char → List Char → List String
  | [], acc => if acc.isEmpty then [] else [String.mk acc.reverse]
  | c :: cs, acc =>
    if c.isWhitespace then
      if acc.isEmpty then pySplitGo cs []
      else String.mk acc.reverse :: pySplitGo cs []
    else pySplitGo cs (c :: acc)

/-- Model of Python `str.split()` with no argument: splits on runs of
whitespace and discards empty pieces. -/
def pySplit (s : String) : List String := pySplitGo s.data []

/-- Mutable state of a `CodeGenerator` instance.  `symbol_table` maps a
variable name to its `(type, offset)` record. -/
structure CGSt where
  symbol_table : List (String × (String × Int))
  current_offset : Int
  float_labels : List (String × String)
  float_label_count : Nat
  data_section : List String
  text_section : List String
deriving DecidableEq

/-- Model of `CodeGenerator.get_var_offset`: returns the stack offset,
defensively allocating an `unknown`-typed slot for an unseen name. -/
def CodeGenerator.get_var_offset (st : CGSt) (var_name : String) : CGSt × Int :=
  match dictFind st.symbol_table var_name with
  | some info => (st, info.2)
  | none =>
    let off := st.current_offset - 4
    ({ st with current_offset := off
               symbol_table := dictSet st.symbol_table var_name ("unknown", off) }, off)

/-- Model of `CodeGenerator.get_var_type`. -/
def CodeGenerator.get_var_type (st : CGSt) (var_name : String) : String :=
  match dictFind st.symbol_table var_name with
  | some info => info.1
  | none => "unknown"

/-- Model of `CodeGenerator.get_float_label`: deduplicated data-section
label for a float constant. -/
def CodeGenerator.get_float_label (st : CGSt) (float_val : String) : CGSt × String :=
  match dictFind st.float_labels float_val with
  | some l => (st, l)
  | none =>
    let label := "__float_" ++ Nat.repr st.float_label_count
    ({ st with float_labels := dictSet st.float_labels float_val label
               float_label_count := st.float_label_count + 1
               data_section := st.data_section ++ ["    " ++ label ++ " dd " ++ float_val] },
     label)

/-- Model of `CodeGenerator.is_int_literal`. -/
def CodeGenerator.is_int_literal (val : String) : Bool :=
  (¬val.data.isEmpty && val.data.all Char.isDigit) ||
  (match val.data with
   | '-' :: rest => ¬rest.isEmpty && rest.all Char.isDigit
   | _ => false)

/-- Model of `CodeGenerator.is_float_literal`. -/
def CodeGenerator.is_float_literal (val : String) : Bool :=
  val.data.any (fun c => c == '.')

/-- Python `str()` text of an embedded exception, used for the inline
error comments of the code generator. -/
def pyErrStr : PyErr → String
  | .semErr m l => semErrStr m l
  | .typeErr m => m
  | .attrErr m => m
  | .keyErr m => quo m
  | .indexErr m => m

/-- Inline comment the code generator emits when generating one IR line
raises (`except Exception as e` in the main loop). -/
def cgErrComment (line : String) (e : PyErr) : String :=
  "\n    ; !!! ERROR GENERATING CODE FOR: " ++ quo line ++ " -> " ++ pyErrStr e ++ " !!!\n"

/-- Appends one line to the text section. -/
def CGSt.emit (st : CGSt) (l : String) : CGSt :=
  { st with text_section := st.text_section ++ [l] }

/-- Renders a stack-frame operand `[ebp{offset}]`. -/
def ebpAt (off : Int) : String := "[ebp" ++ off.repr ++ "]"

/--
Body of one iteration of the main loop of `CodeGenerator.generate`
(the contents of its `try`).  Mirrors the branch structure of the
source exactly, including the evaluation order of mutating helper
calls and the points at which Python would raise IndexError (a missing
`parts[k]`) or KeyError (an unknown `symbol_table` name); within every
branch those raises occur before any mutation, so the caught-error
state is the entry state.
-/
def CodeGenerator.genLineBody (ir : List String) (i : Nat) (line : String) (st : CGSt) :
    Except PyErr CGSt :=
  let parts := pySplit line
  match parts with
  | [] => .ok st
  | op :: _ =>
    if op == "DECLARE" then
      match parts.get? 1, parts.get? 2 with
      | some var_type, some var_name =>
        let off := st.current_offset - 4
        let st := { st with current_offset := off
                            symbol_table := dictSet st.symbol_table var_name (var_type, off) }
        .ok (st.emit ("    sub esp, 4  ; Allocate space for " ++ var_name ++
              " (type: " ++ var_type ++ ") at " ++ ebpAt off))
      | _, _ => .error (.indexErr ("list index out of range"))
    else if op == "ASSIGN" then
      match parts.get? 1, parts.get? 2 with
      | some var_name, some value =>
        match dictFind st.symbol_table var_name with
        | none => .error (.keyErr var_name)
        | some info =>
          let offset := info.2
          if info.1 == "int" then
            if CodeGenerator.is_int_literal value then
              .ok (st.emit ("    mov dword " ++ ebpAt offset ++ ", " ++ value))
            else
              let (st, val_offset) := CodeGenerator.get_var_offset st value
              .ok ((st.emit ("    mov eax, dword " ++ ebpAt val_offset)).emit
                    ("    mov dword " ++ ebpAt offset ++ ", eax"))
          else if info.1 == "float" then
            if CodeGenerator.is_float_literal value then
              let (st, label) := CodeGenerator.get_float_label st value
              .ok ((st.emit ("    fld dword [" ++ label ++ "]")).emit
                    ("    fstp dword " ++ ebpAt offset))
            else
              let (st, val_offset) := CodeGenerator.get_var_offset st value
              .ok ((st.emit ("    fld dword " ++ ebpAt val_offset)).emit
                    ("    fstp dword " ++ ebpAt offset))
          else .ok st
      | _, _ => .error (.indexErr ("list index out of range"))
    else if op == "ADD" || op == "SUB" || op == "MUL" || op == "DIV" then
      match parts.get? 1, parts.get? 2, parts.get? 3, parts.get? 4 with
      | some op_type, some dest, some src1, some src2 =>
        let (st, dest_offset) := CodeGenerator.get_var_offset st dest
        if op_type == "int" then
          let (st, l1) :=
            if CodeGenerator.is_int_literal src1 then (st, "    mov eax, " ++ src1)
            else
              let (st, o) := CodeGenerator.get_var_offset st src1
              (st, "    mov eax, dword " ++ ebpAt o)
          let st := st.emit l1
          let (st, l2) :=
            if CodeGenerator.is_int_literal src2 then (st, "    mov ebx, " ++ src2)
            else
              let (st, o) := CodeGenerator.get_var_offset st src2
              (st, "    mov ebx, dword " ++ ebpAt o)
          let st := st.emit l2
          let st :=
            if op == "ADD" then st.emit ("    add eax, ebx")
            else if op == "SUB" then st.emit ("    sub eax, ebx")
            else if op == "MUL" then st.emit ("    imul eax, ebx")
            else (st.emit ("    cdq")).emit ("    idiv ebx")
          .ok (st.emit ("    mov dword " ++ ebpAt dest_offset ++ ", eax"))
        else if op_type == "float" then
          let (st, l1) :=
            if CodeGenerator.is_float_literal src1 then
              let (st, lab) := CodeGenerator.get_float_label st src1
              (st, "    fld dword [" ++ lab ++ "]")
            else
              let (st, o) := CodeGenerator.get_var_offset st src1
              (st, "    fld dword " ++ ebpAt o)
          let st := st.emit l1
          let (st, l2) :=
            if CodeGenerator.is_float_literal src2 then
              let (st, lab) := CodeGenerator.get_float_label st src2
              (st, "    fld dword [" ++ lab ++ "]")
            else
              let (st, o) := CodeGenerator.get_var_offset st src2
              (st, "    fld dword " ++ ebpAt o)
          let st := st.emit l2
          let st :=
            if op == "ADD" then st.emit ("    faddp st(1), st(0)")
            else if op == "SUB" then st.emit ("    fsubp st(1), st(0)")
            else if op == "MUL" then st.emit ("    fmulp st(1), st(0)")
            else st.emit ("    fdivp st(1), st(0)")
          .ok (st.emit ("    fstp dword " ++ ebpAt dest_offset))
        else .ok st
      | _, _, _, _ => .error (.indexErr ("list index out of range"))
    else if op == "CAST_TO_FLOAT" then
      match parts.get? 1, parts.get? 2 with
      | some dest, some src =>
        let (st, so) := CodeGenerator.get_var_offset st src
        let st := st.emit ("    fild dword " ++ ebpAt so)
        let (st, dof) := CodeGenerator.get_var_offset st dest
        .ok (st.emit ("    fstp dword " ++ ebpAt dof))
      | _, _ => .error (.indexErr ("list index out of range"))
    else if op == "COMPARE" then
      match parts.get? 1, parts.get? 2, parts.get? 3, parts.get? 4 with
      | some cmp_type, some src1, some _cmp_op, some src2 =>
        if cmp_type == "int" then
          let (st, o1) := CodeGenerator.get_var_offset st src1
          let st := st.emit ("    mov eax, dword " ++ ebpAt o1)
          let st :=
            if CodeGenerator.is_int_literal src2 then st.emit ("    mov ebx, " ++ src2)
            else
              let (st, o2) := CodeGenerator.get_var_offset st src2
              st.emit ("    mov ebx, dword " ++ ebpAt o2)
          .ok (st.emit ("    cmp eax, ebx"))
        else if cmp_type == "float" then
          let (st, o1) := CodeGenerator.get_var_offset st src1
          let st := st.emit ("    fld dword " ++ ebpAt o1)
          let st :=
            if CodeGenerator.is_float_literal src2 then
              let (st, lab) := CodeGenerator.get_float_label st src2
              st.emit ("    fld dword [" ++ lab ++ "]")
            else
              let (st, o2) := CodeGenerator.get_var_offset st src2
              st.emit ("    fld dword " ++ ebpAt o2)
          .ok ((st.emit ("    fcomip st(0), st(1)")).emit ("    fstp st(0)"))
        else .ok st
      | _, _, _, _ => .error (.indexErr ("list index out of range"))
    else if op == "JUMP" then
      match parts.get? 1 with
      | some target => .ok (st.emit ("    jmp " ++ target))
      | none => .error (.indexErr ("list index out of range"))
    else if op == "JUMP_IF_FALSE" then
      let prevOpt := if i == 0 then ir.getLast? else ir.get? (i - 1)
      match prevOpt with
      | none => .error (.indexErr ("list index out of range"))
      | some prev_line =>
        let prev_parts := pySplit prev_line
        match prev_parts.get? 1 with
        | none => .error (.indexErr ("list index out of range"))
        | some cmp_type =>
          match prev_parts.get? 3 with
          | none => .error (.indexErr ("list index out of range"))
          | some cmp_op =>
            let jump_op : String :=
              if cmp_type == "int" then
                if cmp_op == "==" then "jne"
                else if cmp_op == "!=" then "je"
                else if cmp_op == ">" then "jle"
                else if cmp_op == ">=" then "jl"
                else if cmp_op == "<" then "jge"
                else if cmp_op == "<=" then "jg"
                else ""
              else if cmp_type == "float" then
                if cmp_op == "==" then "jne"
                else if cmp_op == "!=" then "je"
                else if cmp_op == ">" then "jbe"
                else if cmp_op == ">=" then "jb"
                else if cmp_op == "<" then "jae"
                else if cmp_op == "<=" then "ja"
                else ""
              else ""
            match parts.get? 1 with
            | none => .error (.indexErr ("list index out of range"))
            | some target =>
              .ok (st.emit ("    " ++ jump_op ++ " " ++ target ++
                    " ; Jump if " ++ cmp_op ++ " was false"))
    else if op == "LABEL" then
      match parts.get? 1 with
      | some name => .ok (st.emit (name ++ ":"))
      | none => .error (.indexErr ("list index out of range"))
    else .ok st

/-- One main-loop step of `CodeGenerator.generate`, with the
per-instruction `try`/`except` that renders a raised exception as an
inline comment and continues. -/
def CodeGenerator.genLine (ir : List String) (i : Nat) (line : String) (st : CGSt) : CGSt :=
  match CodeGenerator.genLineBody ir i line st with
  | .ok st1 => st1
  | .error e => st.emit (cgErrComment line e)

/-- Main generation loop (`for i, line in enumerate(self.ir)`). -/
def cgMain (ir : List String) : Nat → List String → CGSt → CGSt
  | _, [], st => st
  | i, l :: ls, st => cgMain ir (i + 1) ls (CodeGenerator.genLine ir i l st)

/-- Pre-scan of `CodeGenerator.generate` that populates the data
section with float literals appearing in ASSIGN/arithmetic lines
(runs outside any `try`, so an IndexError aborts generation). -/
def cgPrescan : List String → CGSt → Except PyErr CGSt
  | [], st => .ok st
  | line :: rest, st =>
    let parts := pySplit line
    match parts with
    | [] => cgPrescan rest st
    | op :: _ =>
      if op == "ASSIGN" then
        match parts.get? 2 with
        | none => .error (.indexErr ("list index out of range"))
        | some v =>
          let st := if CodeGenerator.is_float_literal v then
              (CodeGenerator.get_float_label st v).1 else st
          cgPrescan rest st
      else if op == "ADD" || op == "SUB" || op == "MUL" || op == "DIV" then
        match parts.get? 3 with
        | none => .error (.indexErr ("list index out of range"))
        | some v3 =>
          let st := if CodeGenerator.is_float_literal v3 then
              (CodeGenerator.get_float_label st v3).1 else st
          match parts.get? 4 with
          | none => .error (.indexErr ("list index out of range"))
          | some v4 =>
            let st := if CodeGenerator.is_float_literal v4 then
                (CodeGenerator.get_float_label st v4).1 else st
            cgPrescan rest st
      else cgPrescan rest st

/-- Initial state of a fresh `CodeGenerator` with the fixed prologue
installed at the start of `generate`. -/
def cgInit : CGSt :=
  { symbol_table := []
    current_offset := 0
    float_labels := []
    float_label_count := 0
    data_section := ["section .data"]
    text_section := ["section .text", "global _start", "_start:",
      "    push ebp", "    mov ebp, esp", "    ; --- Begin user code ---"] }

/-- Model of `CodeGenerator.generate`: prologue, float pre-scan, main
loop, epilogue, then the joined assembly text. -/
def CodeGenerator.generate (ir : List String) : Except PyErr String :=
  match cgPrescan ir cgInit with
  | .error e => .error e
  | .ok st =>
    let st := cgMain ir 0 ir st
    let st := { st with text_section := st.text_section ++
        ["    ; --- End of user code ---", "    mov esp, ebp", "    pop ebp",
         "    mov eax, 1", "    xor ebx, ebx", "    int 0x80"] }
    let assembly := st.text_section ++
      (if 1 < st.data_section.length then st.data_section else [])
    .ok (String.intercalate ("\n") assembly)

/--
Inverted branch table exactly as the claim and the specification state
it: for int comparisons the signed jumps, for float comparisons the
unsigned jumps.  This definition is written from the specification
text (not from the code) so that the code-generator theorem relates
the code to it.
-/
def specInvertedJump (ty op : String) : Option String :=
  if ty == "int" then
    if op == "==" then some "jne"
    else if op == "!=" then some "je"
    else if op == ">" then some "jle"
    else if op == ">=" then some "jl"
    else if op == "<" then some "jge"
    else if op == "<=" then some "jg"
    else none
  else if ty == "float" then
    if op == "==" then some "jne"
    else if op == "!=" then some "je"
    else if op == ">" then some "jbe"
    else if op == ">=" then some "jb"
    else if op == "<" then some "jae"
    else if op == "<=" then some "ja"
    else none
  else none

/-- Recoverable diagnostic of the parser (`ParseError(message, line,
suggestion)`). -/
structure PErr where
  message : String
  line : Nat
  suggestion : Option String
deriving DecidableEq

/-- Mutable state of a `Parser` instance: the token list, the position,
and the accumulated `ParseError` list.  The Python `current_token`
field is derived: `tokens[pos]` while in range, else the last token
("stay at EOF"). -/
structure PState where
  tokens : List Token
  pos : Nat
  errors : List PErr
deriving DecidableEq

/-- The parser field current_token (maintained by `advance`): the token
at `pos`, or the final token once `pos` runs past the end.  A `Parser`
is only ever constructed on `tokenize` output, which is nonempty and
EOF-terminated; the `default` fallback for an empty list is
unreachable there. -/
def Parser.cur (s : PState) : Token :=
  if s.pos < s.tokens.length then s.tokens.getD s.pos default
  else s.tokens.getLastD default

/-- Model of `Parser.advance`. -/
def Parser.advance (s : PState) : PState := { s with pos := s.pos + 1 }

/-- Appends one diagnostic. -/
def Parser.pushErr (s : PState) (e : PErr) : PState :=
  { s with errors := s.errors ++ [e] }

/-- Model of `Parser.eat`: consume the expected token, or record a
generic mismatch diagnostic and advance once (unless at EOF). -/
def Parser.eat (s : PState) (token_type : String) (token_value : Option String) : PState :=
  let t := Parser.cur s
  if t.type == token_type && (token_value.isNone || t.value == token_value.getD ("")) then
    Parser.advance s
  else
    let expected := match token_value with
      | some v => quo v
      | none => token_type
    let s1 := Parser.pushErr s
      ⟨"Expected " ++ expected ++ ", but found " ++ t.type ++ "(" ++ quo t.value ++ ")",
       t.line, none⟩
    if t.type ≠ "EOF" then Parser.advance s1 else s1

/-- Panic-skip loop of `Parser.error`: advance until EOF or a statement
boundary.  The fuel `tokens.length + 1` drives `pos` past the end of
the list; for an EOF-terminated token list this is exactly the Python
loop (which would spin forever on a list not ending in EOF or a
boundary token). -/
def Parser.panicSkip : Nat → PState → PState
  | 0, s => s
  | fuel+1, s =>
    let t := Parser.cur s
    if t.type ≠ "EOF" ∧ t.value ≠ ";" ∧ t.value ≠ "\x7d" ∧ t.value ≠ ")" then
      Parser.panicSkip fuel (Parser.advance s)
    else s

/-- Model of `Parser.error`: record the diagnostic (with the
`. Encountered ...` suffix naming the token), then recover by skipping to a
statement boundary and consuming a trailing semicolon. -/
def Parser.error (s : PState) (message : String) (suggestion : Option String) : PState :=
  let t := Parser.cur s
  let s1 := Parser.pushErr s
    ⟨message ++ ". Encountered " ++ t.type ++ "(" ++ quo t.value ++ ")", t.line, suggestion⟩
  let s2 := Parser.panicSkip (s1.tokens.length + 1) s1
  if (Parser.cur s2).value == ";" then Parser.advance s2 else s2

/-- Missing-semicolon epilogue shared by `Parser.declaration`
(`noun = errNoun = "declaration"`) and `Parser.statement`
(`noun = "statement"`, `errNoun = "expression statement"`): consume a
present `;`; otherwise, if the next token looks like the start of a
new statement, record one missing-semicolon diagnostic with a
suggestion and do NOT consume it; otherwise report via `Parser.error`. -/
def Parser.semiEpilogue (noun errNoun : String) (s : PState) : PState :=
  let t := Parser.cur s
  if t.value == ";" then Parser.eat s ("DELIM") (some (";"))
  else if t.type == "KEYWORD" || t.type == "ID" ||
      t.value == "\x7b" || t.value == "\x7d" || t.value == "EOF" then
    Parser.pushErr s
      ⟨"Missing " ++ quo (";") ++ " after " ++ noun ++ ". Encountered " ++
        t.type ++ "(" ++ quo t.value ++ ")", t.line,
       some ("Did you forget a " ++ quo (";") ++ " at the end of the " ++ noun ++ "?")⟩
  else Parser.error s ("Expected " ++ quo (";") ++ " after " ++ errNoun) none

/-- Model of `Parser.type_specifier`: eats `int`/`float`, or records a
diagnostic and returns a dummy `int` type node. -/
def Parser.type_specifier (s : PState) : Node × PState :=
  let t := Parser.cur s
  if t.value == "int" || t.value == "float" then
    (Node.typeP t, Parser.eat s ("KEYWORD") (some t.value))
  else
    let s1 := Parser.pushErr s
      ⟨"Expected a type specifier (e.g., int, float), but found " ++
        t.type ++ "(" ++ quo t.value ++ ")", t.line, none⟩
    (Node.typeP ⟨"KEYWORD", "int", t.line⟩, s1)

/-- Model of `Parser.variable` (`variable` is reserved in Lean):
builds a `Variable` node from the current token and eats an ID. -/
def Parser.variableFn (s : PState) : Node × PState :=
  (Node.variableP (Parser.cur s), Parser.eat s ("ID") none)

/--
Grammar nonterminal being parsed, together with the loop accumulators
of its `while` loops.  The recursive-descent methods of `Parser` are
defunctionalized into the single fueled interpreter `parseF` so that
the (genuinely possible, see the divergence theorems) nonterminating
executions are modeled by `none` at every fuel:
`programR` = `Parser.program` (accumulating `Program.children`),
`declarationR`/`declLoop` = `Parser.declaration` and its `while` loop,
`statementR` = `Parser.statement`, `ifStmt` = `Parser.if_statement`,
`blockR`/`blockLoop` = `Parser.block` and its loop,
`expression`/`comparison`/`compLoop`/`term`/`termLoop`/`factor`/
`factorLoop`/`primary` = the expression-grammar methods and their
operator loops (the loop rules carry the left operand parsed so far).
-/
inductive PRule where
  | programR (acc : List Node)
  | declarationR
  | declLoop (type_node : Node) (acc : List Node)
  | statementR
  | ifStmt
  | blockR
  | blockLoop (acc : List Node)
  | expression
  | comparison
  | compLoop (node : Node)
  | term
  | termLoop (node : Node)
  | factor
  | factorLoop (node : Node)
  | primary

/-- Result of a parser call: a single AST node, or the node list
returned by `Parser.declaration` / accumulated by a block loop. -/
inductive PRes where
  | node (nd : Node)
  | decls (ds : List Node)

/--
Fueled interpreter of the recursive-descent parser (see `PRule`).
Every Python method call costs one fuel unit; `none` means the
computation did not finish within the given fuel.  The `.decls` arms
marked unreachable return `none`; they cannot occur because each rule
returns a fixed constructor.  In `expression`, the Python lookahead
`self.tokens[self.pos + 1]` is modeled with a `default` fallback
(Python would raise IndexError there, which is unreachable on an
EOF-terminated token list).
-/
def parseF : Nat → PRule → PState → Option (PRes × PState)
  | 0, _, _ => none
  | fuel+1, r, s =>
    match r with
    | .programR acc =>
      if (Parser.cur s).type == "EOF" then some (.node (.program acc), s)
      else if (Parser.cur s).value == "int" || (Parser.cur s).value == "float" then
        match parseF fuel .declarationR s with
        | none => none
        | some (.decls ds, s1) => parseF fuel (.programR (acc ++ ds)) s1
        | some (.node _, _) => none
      else
        match parseF fuel .statementR s with
        | none => none
        | some (.node nd, s1) => parseF fuel (.programR (acc ++ [nd])) s1
        | some (.decls _, _) => none
    | .declarationR =>
      let (tnode, s1) := Parser.type_specifier s
      match parseF fuel (.declLoop tnode []) s1 with
      | none => none
      | some (.decls ds, s2) => some (.decls ds, Parser.semiEpilogue ("declaration") ("declaration") s2)
      | some (.node _, _) => none
    | .declLoop tnode acc =>
      if (Parser.cur s).type == "ID" then
        let (var, s1) := Parser.variableFn s
        if (Parser.cur s1).value == "=" then
          let op := Parser.cur s1
          let s2 := Parser.eat s1 ("OP") (some ("="))
          match parseF fuel .expression s2 with
          | none => none
          | some (.node expr, s3) =>
            let vd := Node.varDeclP tnode var (some (.assignP var op expr))
            if (Parser.cur s3).value == "," then
              parseF fuel (.declLoop tnode (acc ++ [vd])) (Parser.eat s3 ("DELIM") (some (",")))
            else some (.decls (acc ++ [vd]), s3)
          | some (.decls _, _) => none
        else
          let vd := Node.varDeclP tnode var none
          if (Parser.cur s1).value == "," then
            parseF fuel (.declLoop tnode (acc ++ [vd])) (Parser.eat s1 ("DELIM") (some (",")))
          else some (.decls (acc ++ [vd]), s1)
      else some (.decls acc, s)
    | .statementR =>
      if (Parser.cur s).value == "if" then parseF fuel .ifStmt s
      else if (Parser.cur s).value == "\x7b" then parseF fuel .blockR s
      else
        match parseF fuel .expression s with
        | none => none
        | some (.node nd, s1) =>
          some (.node nd, Parser.semiEpilogue ("statement") ("expression statement") s1)
        | some (.decls _, _) => none
    | .ifStmt =>
      let s1 := Parser.eat s ("KEYWORD") (some ("if"))
      let s2 := Parser.eat s1 ("DELIM") (some ("("))
      match parseF fuel .expression s2 with
      | none => none
      | some (.decls _, _) => none
      | some (.node condN, s3) =>
        let s4 :=
          if (Parser.cur s3).value == ")" then Parser.eat s3 ("DELIM") (some (")"))
          else if (Parser.cur s3).value == "\x7b" then
            Parser.pushErr s3
              ⟨"Missing " ++ quo (")") ++ " after if-condition. Encountered " ++
                quo (Parser.cur s3).value, (Parser.cur s3).line,
               some ("Did you forget a " ++ quo (")") ++ " before the " ++ quo ("\x7b") ++ "?")⟩
          else Parser.error s3 ("Expected " ++ quo (")") ++ " after if-condition") none
        if (Parser.cur s4).value == ";" then
          let s5 := Parser.pushErr s4
            ⟨"Unexpected " ++ quo (";") ++ " after if-condition. This creates an empty " ++
              quo ("if") ++ " statement.", (Parser.cur s4).line,
             some ("Did you mean to delete this " ++ quo (";") ++ "?")⟩
          let s6 := Parser.eat s5 ("DELIM") (some (";"))
          match parseF fuel .statementR s6 with
          | none => none
          | some (.decls _, _) => none
          | some (.node ifb, s7) =>
            if (Parser.cur s7).value == "else" then
              let s8 := Parser.eat s7 ("KEYWORD") (some ("else"))
              match parseF fuel .statementR s8 with
              | none => none
              | some (.decls _, _) => none
              | some (.node elseb, s9) => some (.node (.ifNode condN ifb (some elseb)), s9)
            else some (.node (.ifNode condN ifb none), s7)
        else
          match parseF fuel .statementR s4 with
          | none => none
          | some (.decls _, _) => none
          | some (.node ifb, s7) =>
            if (Parser.cur s7).value == "else" then
              let s8 := Parser.eat s7 ("KEYWORD") (some ("else"))
              match parseF fuel .statementR s8 with
              | none => none
              | some (.decls _, _) => none
              | some (.node elseb, s9) => some (.node (.ifNode condN ifb (some elseb)), s9)
            else some (.node (.ifNode condN ifb none), s7)
    | .blockR =>
      let s1 := Parser.eat s ("DELIM") (some ("\x7b"))
      match parseF fuel (.blockLoop []) s1 with
      | none => none
      | some (.node _, _) => none
      | some (.decls stmts, s2) =>
        let s3 :=
          if (Parser.cur s2).value == "\x7d" then Parser.eat s2 ("DELIM") (some ("\x7d"))
          else Parser.pushErr s2
            ⟨"Missing " ++ quo ("\x7d") ++ " to close block. Encountered " ++
              (Parser.cur s2).type ++ "(" ++ quo (Parser.cur s2).value ++ ")",
             (Parser.cur s2).line, none⟩
        some (.node (.blockP stmts), s3)
    | .blockLoop acc =>
      if (Parser.cur s).value ≠ "\x7d" ∧ (Parser.cur s).type ≠ "EOF" then
        match parseF fuel .statementR s with
        | none => none
        | some (.decls _, _) => none
        | some (.node nd, s1) => parseF fuel (.blockLoop (acc ++ [nd])) s1
      else some (.decls acc, s)
    | .expression =>
      if (Parser.cur s).type == "ID" &&
          (s.tokens.getD (s.pos + 1) default).value == "=" then
        let (var, s1) := Parser.variableFn s
        let op := Parser.cur s1
        let s2 := Parser.eat s1 ("OP") (some ("="))
        match parseF fuel .expression s2 with
        | none => none
        | some (.decls _, _) => none
        | some (.node expr, s3) => some (.node (.assignP var op expr), s3)
      else parseF fuel .comparison s
    | .comparison =>
      match parseF fuel .term s with
      | none => none
      | some (.decls _, _) => none
      | some (.node nd, s1) => parseF fuel (.compLoop nd) s1
    | .compLoop nd =>
      let v := (Parser.cur s).value
      if v == ">" || v == "<" || v == "==" || v == "!=" || v == ">=" || v == "<=" then
        let op := Parser.cur s
        let s1 := Parser.eat s ("OP") (some op.value)
        match parseF fuel .term s1 with
        | none => none
        | some (.decls _, _) => none
        | some (.node rhs, s2) => parseF fuel (.compLoop (.binOp nd op rhs)) s2
      else some (.node nd, s)
    | .term =>
      match parseF fuel .factor s with
      | none => none
      | some (.decls _, _) => none
      | some (.node nd, s1) => parseF fuel (.termLoop nd) s1
    | .termLoop nd =>
      let v := (Parser.cur s).value
      if v == "+" || v == "-" then
        let op := Parser.cur s
        let s1 := Parser.eat s ("OP") (some op.value)
        match parseF fuel .factor s1 with
        | none => none
        | some (.decls _, _) => none
        | some (.node rhs, s2) => parseF fuel (.termLoop (.binOp nd op rhs)) s2
      else some (.node nd, s)
    | .factor =>
      match parseF fuel .primary s with
      | none => none
      | some (.decls _, _) => none
      | some (.node nd, s1) => parseF fuel (.factorLoop nd) s1
    | .factorLoop nd =>
      let v := (Parser.cur s).value
      if v == "*" || v == "/" then
        let op := Parser.cur s
        let s1 := Parser.eat s ("OP") (some op.value)
        match parseF fuel .primary s1 with
        | none => none
        | some (.decls _, _) => none
        | some (.node rhs, s2) => parseF fuel (.factorLoop (.binOp nd op rhs)) s2
      else some (.node nd, s)
    | .primary =>
      let t := Parser.cur s
      if t.type == "NUMBER" then some (.node (.number t), Parser.eat s ("NUMBER") none)
      else if t.type == "ID" then
        let (v, s1) := Parser.variableFn s
        some (.node v, s1)
      else if t.value == "(" then
        let s1 := Parser.eat s ("DELIM") (some ("("))
        match parseF fuel .expression s1 with
        | none => none
        | some (.decls _, _) => none
        | some (.node nd, s2) => some (.node nd, Parser.eat s2 ("DELIM") (some (")")))
      else
        let s1 := Parser.pushErr s
          ⟨"Invalid syntax in expression. Expected number, variable, or " ++ quo ("(") ++ ".",
           t.line, none⟩
        some (.node (.number ⟨"NUMBER", "0", t.line⟩), s1)

/-- Model of `Parser.parse`: run `program` from position 0 with an
empty error list, then append the trailing-tokens diagnostic when the
parse stopped before EOF with no recorded error.  Returns the AST and
the accumulated diagnostics, or `none` when the parser does not
terminate within the fuel. -/
def Parser.parse (fuel : Nat) (tokens : List Token) : Option (Node × List PErr) :=
  match parseF fuel (.programR []) ⟨tokens, 0, []⟩ with
  | none => none
  | some (.decls _, _) => none
  | some (.node ast, s) =>
    let s1 :=
      if (Parser.cur s).type ≠ "EOF" ∧ s.errors.isEmpty then
        Parser.pushErr s ⟨"Unexpected tokens at end of file.", (Parser.cur s).line, none⟩
      else s
    some (ast, s1.errors)


/-- A tuple whose opcode is not arithmetic passes through the fold
unchanged. -/
theorem foldTup_of_not_arith (t : IRTup)
    (h : t.op ≠ "ADD" ∧ t.op ≠ "SUB" ∧ t.op ≠ "MUL" ∧ t.op ≠ "DIV") :
    Optimizer.foldTup t = t := by
  rw [Optimizer.foldTup, if_neg]
  intro hc
  simp only [Bool.and_eq_true, Bool.or_eq_true, beq_iff_eq] at hc
  rcases hc with ⟨⟨((h1 | h1) | h1) | h1, _⟩, _⟩
  exacts [h.1 h1, h.2.1 h1, h.2.2.1 h1, h.2.2.2 h1]

/-- The per-tuple fold is idempotent: a folded tuple is an ASSIGN,
which the fold leaves alone. -/
theorem foldTup_idem (t : IRTup) :
    Optimizer.foldTup (Optimizer.foldTup t) = Optimizer.foldTup t := by
  by_cases h : ((t.op == "ADD" || t.op == "SUB" || t.op == "MUL" || t.op == "DIV") &&
      Optimizer.is_numeric t.arg1 && Optimizer.is_numeric t.arg2) = true
  · have hfold : Optimizer.foldTup t =
        ⟨"ASSIGN",
         some (renderVal (applyArith t.op ((pyFloat (t.arg1.getD (""))).getD (0, 1))
            ((pyFloat (t.arg2.getD (""))).getD (0, 1)))), none, t.result⟩ := by
      rw [Optimizer.foldTup, if_pos h]
    rw [hfold]
    exact foldTup_of_not_arith _ ⟨by simp, by simp, by simp, by simp⟩
  · have hid : Optimizer.foldTup t = t := by rw [Optimizer.foldTup, if_neg h]
    rw [hid, hid]

/--
C6: constant folding is idempotent: a sequence of non-arithmetic
instructions (in particular ASSIGN instructions) is returned unchanged
instruction by instruction, and applying the optimizer twice to any IR
sequence yields the same result as applying it once.
-/
theorem c6_optimize_idempotent :
    (∀ code : List IRTup,
      (∀ t ∈ code, t.op ≠ "ADD" ∧ t.op ≠ "SUB" ∧ t.op ≠ "MUL" ∧ t.op ≠ "DIV") →
        Optimizer.optimize code = code) ∧
    (∀ code : List IRTup,
      Optimizer.optimize (Optimizer.optimize code) = Optimizer.optimize code) := by
  constructor
  · intro code h
    unfold Optimizer.optimize Optimizer.constant_folding
    induction code with
    | nil => rfl
    | cons t ts ih =>
      simp only [List.map_cons]
      rw [foldTup_of_not_arith t (h t (by simp))]
      rw [ih (fun u hu => h u (by simp [hu]))]
  · intro code
    unfold Optimizer.optimize Optimizer.constant_folding
    rw [List.map_map]
    apply List.map_congr_left
    intro t _
    exact foldTup_idem t

/-- Witness for C6 at a concrete already-folded sequence. -/
theorem c6_witness :
    Optimizer.optimize [(⟨"ASSIGN", some ("5"), none, "x"⟩ : IRTup)] =
      [(⟨"ASSIGN", some ("5"), none, "x"⟩ : IRTup)] :=
  c6_optimize_idempotent.1 [⟨"ASSIGN", some ("5"), none, "x"⟩]
    (by intro t ht; simp at ht; subst ht; exact ⟨by decide, by decide, by decide, by decide⟩)

/--
C5: folding an arithmetic instruction with two numeric-literal
operands yields an assignment of the computed value into the same
destination; a mathematically integral result is rendered without a
fractional part (`ADD 2 3` folds to the literal `5`, not `5.0`),
`DIV 5 2` folds to the fractional literal `2.5`, and `DIV` of any
numeric literal by the literal `0` folds to an assignment of `0`
rather than an error.
-/
theorem c5_constant_folding :
    (∀ (op a1 a2 res : String) (v1 v2 : PyF),
      pyFloat a1 = some v1 → pyFloat a2 = some v2 →
      (op = "ADD" ∨ op = "SUB" ∨ op = "MUL" ∨ op = "DIV") →
      Optimizer.constant_folding [⟨op, some a1, some a2, res⟩] =
        [⟨"ASSIGN", some (renderVal (applyArith op v1 v2)), none, res⟩]) ∧
    (∀ v : PyF, v.1 % (v.2 : Int) = 0 → renderVal v = (v.1 / (v.2 : Int)).repr) ∧
    Optimizer.constant_folding [⟨"ADD", some ("2"), some ("3"), "t"⟩] =
      [⟨"ASSIGN", some ("5"), none, "t"⟩] ∧
    Optimizer.constant_folding [⟨"DIV", some ("5"), some ("2"), "t"⟩] =
      [⟨"ASSIGN", some ("2.5"), none, "t"⟩] ∧
    (∀ (a1 res : String) (v1 : PyF), pyFloat a1 = some v1 →
      Optimizer.constant_folding [⟨"DIV", some a1, some ("0"), res⟩] =
        [⟨"ASSIGN", some ("0"), none, res⟩]) := by
  refine ⟨?_, ?_, by decide, by decide, ?_⟩
  · intro op a1 a2 res v1 v2 h1 h2 hop
    unfold Optimizer.constant_folding
    simp only [List.map_cons, List.map_nil]
    rw [Optimizer.foldTup, if_pos]
    · simp [h1, h2]
    · rcases hop with rfl | rfl | rfl | rfl <;>
        simp [Optimizer.is_numeric, h1, h2]
  · intro v hv
    rw [renderVal, if_pos (by simpa using hv)]
  · intro a1 res v1 h1
    unfold Optimizer.constant_folding
    simp only [List.map_cons, List.map_nil]
    rw [Optimizer.foldTup, if_pos]
    · have h0 : pyFloat ("0") = some ((0 : Int), 1) := by decide
      simp only [Option.getD_some, h0, h1]
      have hdiv : applyArith ("DIV") v1 ((0 : Int), 1) = ((0 : Int), 1) := by
        rw [applyArith]
        simp
      rw [hdiv]
      have : renderVal ((0 : Int), 1) = "0" := by decide
      rw [this]
    · have h0 : pyFloat ("0") = some ((0 : Int), 1) := by decide
      simp [Optimizer.is_numeric, h1, h0]

/-- Witness for C5: concrete folds with every hypothesis discharged. -/
theorem c5_witness :
    Optimizer.constant_folding [⟨"MUL", some ("4"), some ("2"), "t7"⟩] =
      [⟨"ASSIGN", some (renderVal (applyArith ("MUL") ((4 : Int), 1) ((2 : Int), 1))), none, "t7"⟩] ∧
    Optimizer.constant_folding [⟨"DIV", some ("9"), some ("0"), "u"⟩] =
      [⟨"ASSIGN", some ("0"), none, "u"⟩] :=
  ⟨c5_constant_folding.1 "MUL" "4" "2" "t7" ((4 : Int), 1) ((2 : Int), 1)
      (by decide) (by decide) (by simp),
   c5_constant_folding.2.2.2.2 "9" "u" ((9 : Int), 1) (by decide)⟩

/--
C7: declaring a name already present in the current (innermost) scope
always raises the duplicate-declaration SemanticError, at the symbol
table and through the VarDecl visitor of the analyzer alike; declaring into
a fresh scope never does, so a declaration inside a nested block never
reports a duplicate for a name held only by an enclosing scope
(shadowing), and the block restores the scope stack on exit.
-/
theorem c7_duplicate_vs_shadowing :
    (∀ (scope : List (String × String)) (rest : SymTab) (name ty : String) (line : Nat),
      scope.any (fun p => p.1 == name) = true →
      SymbolTable.declare (scope :: rest) name ty line =
        .error (.semErr (dupMsg name) line)) ∧
    (∀ (scope : List (String × String)) (rest : SymTab) (name ty : String) (line : Nat),
      scope.any (fun p => p.1 == name) = false →
      SymbolTable.declare (scope :: rest) name ty line =
        .ok (((name, ty) :: scope) :: rest)) ∧
    (∀ (scope : List (String × String)) (rest : SymTab) (tyT nameT : Token)
        (v : Option Node) (n : Nat),
      scope.any (fun p => p.1 == nameT.value) = true →
      semVisit (n+1) (.one (.varDeclS tyT nameT v)) (scope :: rest) =
        some (.error (.semErr (dupMsg nameT.value) nameT.line))) ∧
    (∀ (tbl : SymTab) (tyT nameT : Token) (n : Nat), tbl ≠ [] →
      semVisit (n+3) (.one (.blockS [.varDeclS tyT nameT none])) tbl =
        some (.ok ("void", tbl))) := by
  refine ⟨?_, ?_, ?_, ?_⟩
  · intro scope rest name ty line hmem
    rw [SymbolTable.declare]
    rw [if_pos hmem]
  · intro scope rest name ty line hmem
    rw [SymbolTable.declare]
    rw [if_neg (by rw [hmem]; exact Bool.false_ne_true)]
  · intro scope rest tyT nameT v n hmem
    have hdecl : SymbolTable.declare (scope :: rest) nameT.value tyT.value nameT.line =
        .error (.semErr (dupMsg nameT.value) nameT.line) := by
      rw [SymbolTable.declare, if_pos hmem]
    simp only [semVisit, hdecl]
  · intro tbl tyT nameT n htbl
    cases tbl with
    | nil => exact absurd rfl htbl
    | cons s0 rest =>
      show semVisit (n+3) (.one (.blockS [.varDeclS tyT nameT none])) (s0 :: rest) = _
      have hdecl : SymbolTable.declare (SymbolTable.enter_scope (s0 :: rest))
          nameT.value tyT.value nameT.line =
          .ok ([(nameT.value, tyT.value)] :: s0 :: rest) := by
        rw [SymbolTable.enter_scope, SymbolTable.declare]
        rw [if_neg (by simp)]
      simp only [semVisit, SymbolTable.enter_scope] at hdecl ⊢
      rw [hdecl]
      simp only [semVisit, SymbolTable.exit_scope]
      rw [if_pos (by simp)]
      rfl

/-- Witness for C7: a duplicate declaration in the innermost scope
errors, and the same declaration inside a nested block under an outer
binding of the same name succeeds. -/
theorem c7_witness :
    semVisit 5 (.one (.varDeclS ⟨"KEYWORD", "int", 2⟩ ⟨"ID", "x", 2⟩ none))
        [[("x", "int")]] =
      some (.error (.semErr (dupMsg ("x")) 2)) ∧
    semVisit 7 (.one (.blockS [.varDeclS ⟨"KEYWORD", "int", 2⟩ ⟨"ID", "x", 2⟩ none]))
        [[("x", "int")]] =
      some (.ok ("void", [[("x", "int")]])) :=
  ⟨c7_duplicate_vs_shadowing.2.2.1 [("x", "int")] [] ⟨"KEYWORD", "int", 2⟩
      ⟨"ID", "x", 2⟩ none 4 (by decide),
   c7_duplicate_vs_shadowing.2.2.2 [[("x", "int")]] ⟨"KEYWORD", "int", 2⟩
      ⟨"ID", "x", 2⟩ 4 (by simp)⟩

/-- AST on which C10 fails as stated: it contains a `Variable` node
(class name outside the nine handled ones), but the analyzer raises
AttributeError inside `visit_Assign` (a handled class) before the
dispatch ever reaches the `Variable` node. -/
def c10cex : Node :=
  .program [.assignP (.variableP ⟨"ID", "a", 1⟩) ⟨"OP_ASSIGN", "=", 1⟩
    (.number ⟨"NUMBER", "3", 1⟩)]

/--
C10 counterexample: `c10cex` contains a node whose class name
(`Variable`) is not among the nine handled names, yet
`SemanticAnalyzer.analyze` on it raises AttributeError
(`visit_Assign` reads the missing `var_name` attribute of the
parser-shaped Assign node), not the TypeError the claim asserts.
-/
theorem c10_counterexample :
    c10cex = .program [.assignP (.variableP ⟨"ID", "a", 1⟩) ⟨"OP_ASSIGN", "=", 1⟩
        (.number ⟨"NUMBER", "3", 1⟩)] ∧
    Node.className (.variableP ⟨"ID", "a", 1⟩) = "Variable" ∧
    "Variable" ∉ handledNames ∧
    SemanticAnalyzer.analyze 9 c10cex [] =
      some (.error (.attrErr (noAttrMsg ("Assign") ("var_name")))) ∧
    (∀ m : String,
      PyErr.attrErr (noAttrMsg ("Assign") ("var_name")) ≠ PyErr.typeErr m) := by
  refine ⟨rfl, rfl, by decide, rfl, ?_⟩
  intro m h
  exact PyErr.noConfusion h

/--
C10 amended: when the class-name dispatch of `SemanticAnalyzer.visit`
actually reaches a node whose class name is not among the nine handled
names (the parser-built `Variable` and `Type` nodes), it raises
`TypeError("Unknown node type: ...")`, and since
`SemanticAnalyzer.analyze` catches only `SemanticError`, that
TypeError propagates to the caller instead of being recorded as a
diagnostic; however, an AST that merely contains such a node may
instead raise AttributeError inside a handled visitor before the
dispatch reaches it (see the counterexample).
-/
theorem c10_amended_dispatch :
    (∀ (t : Token) (tbl : SymTab) (n : Nat),
      semVisit (n+1) (.one (.variableP t)) tbl =
        some (.error (.typeErr (unknownNodeMsg ("Variable"))))) ∧
    (∀ (t : Token) (tbl : SymTab) (n : Nat),
      semVisit (n+1) (.one (.typeP t)) tbl =
        some (.error (.typeErr (unknownNodeMsg ("Type"))))) ∧
    (∀ (t : Token) (errs : List String) (n : Nat),
      SemanticAnalyzer.analyze (n+3) (.program [.variableP t]) errs =
        some (.error (.typeErr (unknownNodeMsg ("Variable"))))) := by
  refine ⟨fun t tbl n => rfl, fun t tbl n => rfl, ?_⟩
  intro t errs n
  rfl

/-- Witness for the amended C10 theorem at a concrete node. -/
theorem c10_witness :
    SemanticAnalyzer.analyze 3 (.program [.variableP ⟨"ID", "z", 4⟩]) [] =
      some (.error (.typeErr (unknownNodeMsg ("Variable")))) :=
  c10_amended_dispatch.2.2 ⟨"ID", "z", 4⟩ [] 0

/--
C4: when the code generator processes a JUMP_IF_FALSE line whose
immediately preceding IR line is a COMPARE, it emits exactly one
branch instruction, and the branch opcode is the inverted jump
determined by the comparison type and operator read from that
preceding line — for int comparisons the signed jumps
(== to jne, != to je, > to jle, >= to jl, < to jge, <= to jg), for
float comparisons the unsigned jumps
(== to jne, != to je, > to jbe, >= to jb, < to jae, <= to ja) —
as tabulated by the specification-side `specInvertedJump`.
-/
theorem c4_inverted_jump :
    ∀ (ir : List String) (i : Nat) (line prev ty s1 o s2 lbl j : String) (st : CGSt),
      1 ≤ i →
      ir.get? i = some line →
      ir.get? (i - 1) = some prev →
      pySplit line = ["JUMP_IF_FALSE", lbl] →
      pySplit prev = ["COMPARE", ty, s1, o, s2] →
      specInvertedJump ty o = some j →
      CodeGenerator.genLine ir i line st =
        st.emit ("    " ++ j ++ " " ++ lbl ++ " ; Jump if " ++ o ++ " was false") := by
  intro ir i line prev ty s1 o s2 lbl j st hi hline hprev hsl hsp hj
  have hi0 : (i == 0) = false := by simp; omega
  unfold CodeGenerator.genLine CodeGenerator.genLineBody
  rw [hsl]
  simp only [hi0, Bool.false_eq_true, if_false, hprev, hsp]
  rw [specInvertedJump] at hj
  split_ifs at hj <;> simp_all

/-- Witness for C4 on a concrete two-line IR sequence. -/
theorem c4_witness :
    CodeGenerator.genLine ["COMPARE int a > b", "JUMP_IF_FALSE L1"] 1
        "JUMP_IF_FALSE L1" cgInit =
      cgInit.emit ("    " ++ "jle" ++ " " ++ "L1" ++ " ; Jump if " ++ ">" ++ " was false") :=
  c4_inverted_jump ["COMPARE int a > b", "JUMP_IF_FALSE L1"] 1
    "JUMP_IF_FALSE L1" "COMPARE int a > b" "int" "a" ">" "b" "L1" "jle" cgInit
    (by decide) rfl rfl rfl rfl rfl

/-- Unfolding lemma for one `Parser.program` loop iteration that
reaches EOF. -/
theorem parseF_program_eof (fuel : Nat) (acc : List Node) (s : PState)
    (h : ((Parser.cur s).type == "EOF") = true) :
    parseF (fuel+1) (.programR acc) s = some (.node (.program acc), s) := by
  simp only [parseF, h, if_true]

/-- Unfolding lemma for one `Parser.program` loop iteration that takes
the declaration branch. -/
theorem parseF_program_decl (fuel : Nat) (acc : List Node) (s : PState) (ds : List Node)
    (s' : PState)
    (hd : parseF fuel .declarationR s = some (.decls ds, s'))
    (h1 : ((Parser.cur s).type == "EOF") = false)
    (h2 : (((Parser.cur s).value == "int") || ((Parser.cur s).value == "float")) = true) :
    parseF (fuel+1) (.programR acc) s = parseF fuel (.programR (acc ++ ds)) s' := by
  simp only [parseF, h1, h2, hd, Bool.false_eq_true, if_false, if_true]

/-- Unfolding lemma for one `Parser.program` loop iteration that takes
the statement branch. -/
theorem parseF_program_stmt (fuel : Nat) (acc : List Node) (s : PState) (nd : Node)
    (s' : PState)
    (hs : parseF fuel .statementR s = some (.node nd, s'))
    (h1 : ((Parser.cur s).type == "EOF") = false)
    (h2 : (((Parser.cur s).value == "int") || ((Parser.cur s).value == "float")) = false) :
    parseF (fuel+1) (.programR acc) s = parseF fuel (.programR (acc ++ [nd])) s' := by
  simp only [parseF, h1, h2, hs, Bool.false_eq_true, if_false, if_true]

/-- Out-of-fuel propagation through the statement branch of the
`Parser.program` loop. -/
theorem parseF_program_stmt_none (fuel : Nat) (acc : List Node) (s : PState)
    (hs : parseF fuel .statementR s = none)
    (h1 : ((Parser.cur s).type == "EOF") = false)
    (h2 : (((Parser.cur s).value == "int") || ((Parser.cur s).value == "float")) = false) :
    parseF (fuel+1) (.programR acc) s = none := by
  simp only [parseF, h1, h2, hs, Bool.false_eq_true, if_false, if_true]

/-- Out-of-fuel propagation through the declaration branch of the
`Parser.program` loop. -/
theorem parseF_program_decl_none (fuel : Nat) (acc : List Node) (s : PState)
    (hd : parseF fuel .declarationR s = none)
    (h1 : ((Parser.cur s).type == "EOF") = false)
    (h2 : (((Parser.cur s).value == "int") || ((Parser.cur s).value == "float")) = true) :
    parseF (fuel+1) (.programR acc) s = none := by
  simp only [parseF, h1, h2, hd, Bool.false_eq_true, if_false, if_true]

/--
C8: when a declaration or statement lacks its terminating semicolon
and the next token is a keyword, an identifier, or a block delimiter,
the shared semicolon epilogue records exactly one missing-semicolon
diagnostic carrying a suggestion and leaves the position (and token
list) unchanged — the offending token is not consumed; and on the
token stream of `int a int b;` the parser records exactly that one
diagnostic and still returns both declarations as sibling children of
the Program node.
-/
theorem c8_missing_semicolon :
    (∀ (noun errNoun : String) (s : PState),
      (Parser.cur s).value ≠ ";" →
      ((Parser.cur s).type = "KEYWORD" ∨ (Parser.cur s).type = "ID" ∨
        (Parser.cur s).value = "\x7b" ∨ (Parser.cur s).value = "\x7d") →
      Parser.semiEpilogue noun errNoun s = Parser.pushErr s
        ⟨"Missing " ++ quo (";") ++ " after " ++ noun ++ ". Encountered " ++
          (Parser.cur s).type ++ "(" ++ quo (Parser.cur s).value ++ ")",
         (Parser.cur s).line,
         some ("Did you forget a " ++ quo (";") ++ " at the end of the " ++ noun ++ "?")⟩) ∧
    (∀ a b : String,
      Parser.parse 8 [⟨"KEYWORD", "int", 1⟩, ⟨"ID", a, 1⟩, ⟨"KEYWORD", "int", 1⟩,
          ⟨"ID", b, 1⟩, ⟨"DELIM", ";", 1⟩, ⟨"EOF", "EOF", 1⟩] =
        some (.program
          [.varDeclP (.typeP ⟨"KEYWORD", "int", 1⟩) (.variableP ⟨"ID", a, 1⟩) none,
           .varDeclP (.typeP ⟨"KEYWORD", "int", 1⟩) (.variableP ⟨"ID", b, 1⟩) none],
          [⟨"Missing " ++ quo (";") ++ " after declaration. Encountered KEYWORD(" ++ quo ("int") ++ ")",
            1, some ("Did you forget a " ++ quo (";") ++ " at the end of the declaration?")⟩])) := by
  constructor
  · intro noun errNoun s h1 h2
    have hb1 : ((Parser.cur s).value == ";") = false := by
      simp only [beq_eq_false_iff_ne, ne_eq]; exact h1
    rw [Parser.semiEpilogue]
    rw [if_neg (by rw [hb1]; exact Bool.false_ne_true)]
    rw [if_pos]
    rcases h2 with h | h | h | h <;> simp [h]
  · intro a b
    have e1 : parseF 7 .declarationR
        ⟨[⟨"KEYWORD", "int", 1⟩, ⟨"ID", a, 1⟩, ⟨"KEYWORD", "int", 1⟩,
          ⟨"ID", b, 1⟩, ⟨"DELIM", ";", 1⟩, ⟨"EOF", "EOF", 1⟩], 0, []⟩ =
        some (.decls [.varDeclP (.typeP ⟨"KEYWORD", "int", 1⟩) (.variableP ⟨"ID", a, 1⟩) none],
          ⟨[⟨"KEYWORD", "int", 1⟩, ⟨"ID", a, 1⟩, ⟨"KEYWORD", "int", 1⟩,
            ⟨"ID", b, 1⟩, ⟨"DELIM", ";", 1⟩, ⟨"EOF", "EOF", 1⟩], 2,
           [⟨"Missing " ++ quo (";") ++ " after declaration. Encountered KEYWORD(" ++ quo ("int") ++ ")",
             1, some ("Did you forget a " ++ quo (";") ++ " at the end of the declaration?")⟩]⟩) := rfl
    have e2 : parseF 6 .declarationR
        ⟨[⟨"KEYWORD", "int", 1⟩, ⟨"ID", a, 1⟩, ⟨"KEYWORD", "int", 1⟩,
          ⟨"ID", b, 1⟩, ⟨"DELIM", ";", 1⟩, ⟨"EOF", "EOF", 1⟩], 2,
         [⟨"Missing " ++ quo (";") ++ " after declaration. Encountered KEYWORD(" ++ quo ("int") ++ ")",
           1, some ("Did you forget a " ++ quo (";") ++ " at the end of the declaration?")⟩]⟩ =
        some (.decls [.varDeclP (.typeP ⟨"KEYWORD", "int", 1⟩) (.variableP ⟨"ID", b, 1⟩) none],
          ⟨[⟨"KEYWORD", "int", 1⟩, ⟨"ID", a, 1⟩, ⟨"KEYWORD", "int", 1⟩,
            ⟨"ID", b, 1⟩, ⟨"DELIM", ";", 1⟩, ⟨"EOF", "EOF", 1⟩], 5,
           [⟨"Missing " ++ quo (";") ++ " after declaration. Encountered KEYWORD(" ++ quo ("int") ++ ")",
             1, some ("Did you forget a " ++ quo (";") ++ " at the end of the declaration?")⟩]⟩) := rfl
    rw [Parser.parse]
    rw [parseF_program_decl 7 [] _ _ _ e1 rfl rfl]
    rw [parseF_program_decl 6 _ _ _ _ e2 rfl rfl]
    rw [parseF_program_eof 5 _
      ⟨[⟨"KEYWORD", "int", 1⟩, ⟨"ID", a, 1⟩, ⟨"KEYWORD", "int", 1⟩,
        ⟨"ID", b, 1⟩, ⟨"DELIM", ";", 1⟩, ⟨"EOF", "EOF", 1⟩], 5,
       [⟨"Missing " ++ quo (";") ++ " after declaration. Encountered KEYWORD(" ++ quo ("int") ++ ")",
         1, some ("Did you forget a " ++ quo (";") ++ " at the end of the declaration?")⟩]⟩ rfl]
    rfl

/-- Witness for C8: the epilogue at a concrete identifier token, and
the sibling-statements parse at concrete names. -/
theorem c8_witness :
    Parser.semiEpilogue ("statement") ("expression statement") ⟨[⟨"ID", "x", 1⟩], 0, []⟩ =
      Parser.pushErr ⟨[⟨"ID", "x", 1⟩], 0, []⟩
        ⟨"Missing " ++ quo (";") ++ " after statement. Encountered " ++
          (Parser.cur ⟨[⟨"ID", "x", 1⟩], 0, []⟩).type ++ "(" ++
          quo (Parser.cur ⟨[⟨"ID", "x", 1⟩], 0, []⟩).value ++ ")",
         (Parser.cur ⟨[⟨"ID", "x", 1⟩], 0, []⟩).line,
         some ("Did you forget a " ++ quo (";") ++ " at the end of the statement?")⟩ :=
  c8_missing_semicolon.1 "statement" "expression statement" ⟨[⟨"ID", "x", 1⟩], 0, []⟩
    (by decide) (Or.inr (Or.inl rfl))

/-- Token stream of the source `)` — a single stray closing
parenthesis followed by EOF. -/
def c2Toks : List Token := [⟨"DELIM", ")", 1⟩, ⟨"EOF", "EOF", 1⟩]

/-- On the stray-parenthesis stream, `Parser.statement` either runs
out of fuel or returns the placeholder zero literal WITHOUT advancing
the position (it only appends two diagnostics): the `primary` error
path does not advance, and the panic recovery in `Parser.error` stops
immediately at the boundary token `)` without consuming it. -/
theorem c2_stmt_step : ∀ (n : Nat) (errs : List PErr),
    parseF n .statementR ⟨c2Toks, 0, errs⟩ = none ∨
    parseF n .statementR ⟨c2Toks, 0, errs⟩ =
      some (.node (.number ⟨"NUMBER", "0", 1⟩),
        ⟨c2Toks, 0, errs ++
          [⟨"Invalid syntax in expression. Expected number, variable, or " ++ quo ("(") ++ ".", 1, none⟩] ++
          [⟨"Expected " ++ quo (";") ++ " after expression statement. Encountered DELIM(" ++
             quo (")") ++ ")", 1, none⟩]⟩) := by
  intro n errs
  match n with
  | 0 => exact Or.inl rfl
  | 1 => exact Or.inl rfl
  | 2 => exact Or.inl rfl
  | 3 => exact Or.inl rfl
  | 4 => exact Or.inl rfl
  | 5 => exact Or.inl rfl
  | m+6 => exact Or.inr rfl

/-- Because `Parser.statement` makes no progress at the stray `)`,
the `Parser.program` loop never terminates: the parse is out of fuel
at every fuel. -/
theorem c2_program_div : ∀ (n : Nat) (acc : List Node) (errs : List PErr),
    parseF n (.programR acc) ⟨c2Toks, 0, errs⟩ = none := by
  intro n
  induction n with
  | zero => intro acc errs; rfl
  | succ n ih =>
    intro acc errs
    rcases c2_stmt_step n errs with h | h
    · exact parseF_program_stmt_none n acc _ h rfl rfl
    · rw [parseF_program_stmt n acc _ _ _ h rfl rfl]
      exact ih _ _

/--
C2 (code bug): the claim says `Parser.parse` always terminates because
every error path advances the position.  It does not: on the token
sequence of the source `)` (a DELIM token holding the closing parenthesis, then EOF), the
`primary` error path returns its placeholder without advancing and the
panic-mode recovery stops at the boundary token `)` without consuming
it, so the `program` loop re-enters `statement` at the same position
forever, appending two diagnostics per iteration.  Formally, the parse
is `none` (out of fuel) at every fuel, and one `statement` call leaves
the position unchanged.
-/
theorem c2_parse_nontermination :
    (∀ n : Nat, Parser.parse n c2Toks = none) ∧
    (∀ (n : Nat) (errs : List PErr),
      parseF n .statementR ⟨c2Toks, 0, errs⟩ = none ∨
      ∃ e1 e2, parseF n .statementR ⟨c2Toks, 0, errs⟩ =
        some (.node (.number ⟨"NUMBER", "0", 1⟩), ⟨c2Toks, 0, errs ++ [e1] ++ [e2]⟩)) := by
  constructor
  · intro n
    cases n with
    | zero => rfl
    | succ n => simp only [Parser.parse, c2_program_div]
  · intro n errs
    rcases c2_stmt_step n errs with h | h
    · exact Or.inl h
    · exact Or.inr ⟨_, _, h⟩

/-- Witness for C2 at concrete fuel and error list. -/
theorem c2_witness :
    Parser.parse 50 c2Toks = none ∧
    (parseF 50 .statementR ⟨c2Toks, 0, []⟩ = none ∨
      ∃ e1 e2, parseF 50 .statementR ⟨c2Toks, 0, []⟩ =
        some (.node (.number ⟨"NUMBER", "0", 1⟩), ⟨c2Toks, 0, [] ++ [e1] ++ [e2]⟩)) :=
  ⟨c2_parse_nontermination.1 50, c2_parse_nontermination.2 50 []⟩

/-- Adjacency invariant of claim C3: every IF_FALSE instruction is
immediately preceded by the comparison-shaped instruction whose
destination is the tested condition variable. -/
def JifOk (code : List IRLine) : Prop :=
  ∀ (i : Nat) (c l : String), code[i]? = some (.ifFalse c l) →
    ∃ (j : Nat) (a o b : String), i = j + 1 ∧ code[j]? = some (.binop c a o b)

/-- The empty IR sequence satisfies the adjacency invariant. -/
theorem jifOk_nil : JifOk [] := by
  intro i c l h
  simp at h

/-- Appending a non-IF_FALSE instruction preserves the adjacency
invariant. -/
theorem jifOk_append_not_if (code : List IRLine) (ins : IRLine)
    (hc : JifOk code) (hins : ∀ c l, ins ≠ .ifFalse c l) :
    JifOk (code ++ [ins]) := by
  intro i c l h
  rcases Nat.lt_or_ge i code.length with hi | hi
  · rw [List.getElem?_append_left hi] at h
    obtain ⟨j, a, o, b, hij, hbin⟩ := hc i c l h
    exact ⟨j, a, o, b, hij, by
      rw [List.getElem?_append_left (by omega)]
      exact hbin⟩
  · have hlen : i < code.length + 1 := by
      simpa using (List.getElem?_eq_some.mp h).1
    have hieq : i = code.length := by omega
    subst hieq
    rw [List.getElem?_concat_length] at h
    injection h with he
    exact absurd he (hins c l)

/-- Appending an IF_FALSE directly after the comparison that computes
its condition preserves the adjacency invariant. -/
theorem jifOk_append_if (code pre : List IRLine) (c a o b l : String)
    (hc : JifOk code) (hshape : code = pre ++ [.binop c a o b]) :
    JifOk (code ++ [.ifFalse c l]) := by
  intro i c' l' h
  rcases Nat.lt_or_ge i code.length with hi | hi
  · rw [List.getElem?_append_left hi] at h
    obtain ⟨j, a1, o1, b1, hij, hbin⟩ := hc i c' l' h
    exact ⟨j, a1, o1, b1, hij, by
      rw [List.getElem?_append_left (by omega)]
      exact hbin⟩
  · have hlen : i < code.length + 1 := by
      simpa using (List.getElem?_eq_some.mp h).1
    have hieq : i = code.length := by omega
    subst hieq
    rw [List.getElem?_concat_length] at h
    have hcc : c = c' := by
      simp only [Option.some.injEq, IRLine.ifFalse.injEq] at h
      exact h.1
    subst hcc
    refine ⟨pre.length, a, o, b, by simp [hshape], ?_⟩
    rw [List.getElem?_append_left (by simp [hshape])]
    rw [hshape]
    rw [List.getElem?_concat_length]

/-- Well-formedness predicate for the amended C3: every `If` condition
anywhere in the node is a `RelOp` (the only node kind the analyzer
types as bool when declared types are restricted to int/float). -/
inductive CondRel : Node → Prop where
  | number (t : Token) : CondRel (.number t)
  | variableP (t : Token) : CondRel (.variableP t)
  | typeP (t : Token) : CondRel (.typeP t)
  | idNode (v : String) (l : Nat) : CondRel (.idNode v l)
  | binOp (l : Node) (op : Token) (r : Node) :
      CondRel l → CondRel r → CondRel (.binOp l op r)
  | relOp (l : Node) (op : Token) (r : Node) :
      CondRel l → CondRel r → CondRel (.relOp l op r)
  | assignP (l : Node) (op : Token) (r : Node) :
      CondRel l → CondRel r → CondRel (.assignP l op r)
  | assignS (nm : Token) (v : Node) : CondRel v → CondRel (.assignS nm v)
  | varDeclP (t v : Node) (an : Option Node) : CondRel t → CondRel v →
      (∀ x, an = some x → CondRel x) → CondRel (.varDeclP t v an)
  | varDeclS (ty nm : Token) (v : Option Node) :
      (∀ x, v = some x → CondRel x) → CondRel (.varDeclS ty nm v)
  | ifRel (a : Node) (op : Token) (b : Node) (tb : Node) (eb : Option Node) :
      CondRel a → CondRel b → CondRel tb → (∀ e, eb = some e → CondRel e) →
      CondRel (.ifNode (.relOp a op b) tb eb)
  | blockP (cs : List Node) : (∀ c ∈ cs, CondRel c) → CondRel (.blockP cs)
  | blockS (cs : List Node) : (∀ c ∈ cs, CondRel c) → CondRel (.blockS cs)
  | program (cs : List Node) : (∀ c ∈ cs, CondRel c) → CondRel (.program cs)

/-- `CondRel` lifted to a visitor argument. -/
def CondRelIn : NodeCall → Prop
  | .one n => CondRel n
  | .many l => ∀ c ∈ l, CondRel c

/-- Invariant induction: the IR generator preserves the IF_FALSE
adjacency invariant on every visit of a `CondRel` node, because
`visit_RelOp` emits its comparison last and `visit_If` appends the
IF_FALSE immediately afterwards. -/
theorem irF_jif : ∀ (fuel : Nat) (inp : NodeCall) (g : Gen) (res : Option String × Gen),
    irF fuel inp g = some (.ok res) → CondRelIn inp → JifOk g.ir → JifOk res.2.ir := by
  intro fuel
  induction fuel using Nat.strong_induction_on with
  | _ n ih =>
  intro inp g res h hcr hj
  cases n with
  | zero => simp [irF] at h
  | succ k =>
  have ihk : ∀ (inp : NodeCall) (g : Gen) (res : Option String × Gen),
      irF k inp g = some (.ok res) → CondRelIn inp → JifOk g.ir → JifOk res.2.ir :=
    fun inp g res h1 h2 h3 => ih k (by omega) inp g res h1 h2 h3
  cases inp with
  | many l =>
    cases l with
    | nil =>
      simp only [irF, Option.some.injEq, Except.ok.injEq] at h
      subst h
      exact hj
    | cons c cs =>
      simp only [irF] at h
      split at h
      · simp at h
      · simp at h
      · rename_i v1 g1 heq
        have hj1 : JifOk g1.ir := ihk (.one c) g (v1, g1) heq (hcr c (by simp)) hj
        exact ihk (.many cs) g1 res h (fun x hx => hcr x (by simp [hx])) hj1
  | one nd =>
    cases nd with
    | number t =>
      simp only [irF, Option.some.injEq, Except.ok.injEq] at h
      subst h
      exact hj
    | idNode v l =>
      simp only [irF, Option.some.injEq, Except.ok.injEq] at h
      subst h
      exact hj
    | variableP t => simp [irF] at h
    | typeP t => simp [irF] at h
    | varDeclP a b c => simp [irF] at h
    | assignP a b c => simp [irF] at h
    | blockP cs => simp [irF] at h
    | blockS cs =>
      simp only [irF] at h
      split at h
      · simp at h
      · simp at h
      · rename_i v1 g1 heq
        simp only [Option.some.injEq, Except.ok.injEq] at h
        subst h
        cases hcr with
        | blockS cs hall => exact ihk (.many cs) g (v1, g1) heq hall hj
    | program cs =>
      simp only [irF] at h
      split at h
      · simp at h
      · simp at h
      · rename_i v1 g1 heq
        simp only [Option.some.injEq, Except.ok.injEq] at h
        subst h
        cases hcr with
        | program cs hall => exact ihk (.many cs) g (v1, g1) heq hall hj
    | varDeclS vt vn value =>
      cases value with
      | none =>
        simp only [irF, Option.some.injEq, Except.ok.injEq] at h
        subst h
        exact jifOk_append_not_if g.ir _ hj (fun c l => by simp)
      | some v =>
        simp only [irF] at h
        split at h
        · simp at h
        · simp at h
        · rename_i src g2 heq
          simp only [Option.some.injEq, Except.ok.injEq] at h
          subst h
          cases hcr with
          | varDeclS ty nm v hv =>
            have hj1 : JifOk (g.ir ++ [IRLine.declare vt.value vn.value]) :=
              jifOk_append_not_if g.ir _ hj (fun c l => by simp)
            have hj2 : JifOk g2.ir := ihk (.one v) _ (src, g2) heq (hv v rfl) hj1
            exact jifOk_append_not_if g2.ir _ hj2 (fun c l => by simp)
    | assignS vn value =>
      simp only [irF] at h
      split at h
      · simp at h
      · simp at h
      · rename_i src g1 heq
        simp only [Option.some.injEq, Except.ok.injEq] at h
        subst h
        cases hcr with
        | assignS nm v hv =>
          have hj1 : JifOk g1.ir := ihk (.one value) g (src, g1) heq hv hj
          exact jifOk_append_not_if g1.ir _ hj1 (fun c l => by simp)
    | binOp l op r =>
      simp only [irF] at h
      split at h
      · simp at h
      · simp at h
      · rename_i ls g1 heq1
        split at h
        · simp at h
        · simp at h
        · rename_i rs g2 heq2
          simp only [Option.some.injEq, Except.ok.injEq] at h
          subst h
          cases hcr with
          | binOp l op r hl hr =>
            have hj1 : JifOk g1.ir := ihk (.one l) g (ls, g1) heq1 hl hj
            have hj2 : JifOk g2.ir := ihk (.one r) g1 (rs, g2) heq2 hr hj1
            exact jifOk_append_not_if g2.ir _ hj2 (fun c l => by simp)
    | relOp l op r =>
      simp only [irF] at h
      split at h
      · simp at h
      · simp at h
      · rename_i ls g1 heq1
        split at h
        · simp at h
        · simp at h
        · rename_i rs g2 heq2
          simp only [Option.some.injEq, Except.ok.injEq] at h
          subst h
          cases hcr with
          | relOp l op r hl hr =>
            have hj1 : JifOk g1.ir := ihk (.one l) g (ls, g1) heq1 hl hj
            have hj2 : JifOk g2.ir := ihk (.one r) g1 (rs, g2) heq2 hr hj1
            exact jifOk_append_not_if g2.ir _ hj2 (fun c l => by simp)
    | ifNode cond tb eb =>
      cases hcr with
      | ifRel a op b tb eb ha hb htb heb =>
      have hrel : ∀ (cv : Option String) (g1 : Gen),
          irF k (.one (.relOp a op b)) g = some (.ok (cv, g1)) →
          JifOk g1.ir ∧
          ∃ (pre : List IRLine) (a1 o1 b1 : String),
            g1.ir = pre ++ [.binop (fmtOpt cv) a1 o1 b1] := by
        intro cv g1 heqc
        cases k with
        | zero => simp [irF] at heqc
        | succ m =>
          have ihm : ∀ (inp : NodeCall) (g : Gen) (res : Option String × Gen),
              irF m inp g = some (.ok res) → CondRelIn inp → JifOk g.ir → JifOk res.2.ir :=
            fun inp g res h1 h2 h3 => ih m (by omega) inp g res h1 h2 h3
          simp only [irF] at heqc
          split at heqc
          · simp at heqc
          · simp at heqc
          · rename_i aV gA heqA
            split at heqc
            · simp at heqc
            · simp at heqc
            · rename_i bV gB heqB
              simp only [Option.some.injEq, Except.ok.injEq, Prod.mk.injEq] at heqc
              obtain ⟨hcv, hg1⟩ := heqc
              have hjA : JifOk gA.ir := ihm (.one a) g (aV, gA) heqA ha hj
              have hjB : JifOk gB.ir := ihm (.one b) gA (bV, gB) heqB hb hjA
              constructor
              · rw [← hg1]
                exact jifOk_append_not_if gB.ir _ hjB (fun c l => by simp)
              · refine ⟨gB.ir, fmtOpt aV, op.value, fmtOpt bV, ?_⟩
                rw [← hg1, ← hcv]
                rfl
      cases eb with
      | none =>
        simp only [irF] at h
        split at h
        · simp at h
        · simp at h
        · rename_i cv g1 heqc
          split at h
          · simp at h
          · simp at h
          · rename_i vT gT heqT
            simp only [Option.some.injEq, Except.ok.injEq] at h
            subst h
            obtain ⟨hj1, pre, a1, o1, b1, hshape⟩ := hrel cv g1 heqc
            have hjIf : JifOk (g1.ir ++ [IRLine.ifFalse (fmtOpt cv) (mkLabel (g1.label_count + 1))]) :=
              jifOk_append_if g1.ir pre (fmtOpt cv) a1 o1 b1 _ hj1 hshape
            have hjT : JifOk gT.ir := ihk (.one tb) _ (vT, gT) heqT htb hjIf
            exact jifOk_append_not_if gT.ir _ hjT (fun c l => by simp)
      | some els =>
        simp only [irF] at h
        split at h
        · simp at h
        · simp at h
        · rename_i cv g1 heqc
          split at h
          · simp at h
          · simp at h
          · rename_i vT gT heqT
            split at h
            · simp at h
            · simp at h
            · rename_i vE gE heqE
              simp only [Option.some.injEq, Except.ok.injEq] at h
              subst h
              obtain ⟨hj1, pre, a1, o1, b1, hshape⟩ := hrel cv g1 heqc
              have hjIf : JifOk (g1.ir ++ [IRLine.ifFalse (fmtOpt cv) (mkLabel (g1.label_count + 2))]) :=
                jifOk_append_if g1.ir pre (fmtOpt cv) a1 o1 b1 _ hj1 hshape
              have hjT : JifOk gT.ir := ihk (.one tb) _ (vT, gT) heqT htb hjIf
              have hjG : JifOk (gT.ir ++ [IRLine.goto (mkLabel (g1.label_count + 1)), IRLine.label (mkLabel (g1.label_count + 2))]) := by
                have h1 : JifOk (gT.ir ++ [IRLine.goto (mkLabel (g1.label_count + 1))]) :=
                  jifOk_append_not_if gT.ir _ hjT (fun c l => by simp)
                have h2 := jifOk_append_not_if _ (IRLine.label (mkLabel (g1.label_count + 2))) h1 (fun c l => by simp)
                simpa using h2
              have hjE : JifOk gE.ir := ihk (.one els) _ (vE, gE) heqE (heb els rfl) hjG
              exact jifOk_append_not_if gE.ir _ hjE (fun c l => by simp)

/-- Semantically valid AST (zero analyzer diagnostics) on which the C3
claim fails: the analyzer never validates declared type names, so
`bool x` declares x at type bool and the bare identifier condition
`if (x)` then passes semantic analysis; the IR generator emits its
IF_FALSE right after the DECLARE, with no comparison at all. -/
def c3cex : Node :=
  .program [.varDeclS ⟨"KEYWORD", "bool", 1⟩ ⟨"ID", "x", 1⟩ none,
    .ifNode (.idNode "x" 1) (.blockS []) none]

/--
C3 counterexample: `c3cex` passes semantic analysis with zero
diagnostics, yet the generated IR has an IF_FALSE whose predecessor is
a DECLARE, not a comparison.
-/
theorem c3_counterexample :
    SemanticAnalyzer.analyze 20 c3cex [] = some (.ok ("void", [])) ∧
    IRGenerator.generate 20 c3cex =
      some (.ok [.declare ("bool") ("x"), .ifFalse ("x") ("L1"), .label ("L1")]) ∧
    ¬ JifOk [.declare ("bool") ("x"), .ifFalse ("x") ("L1"), .label ("L1")] := by
  refine ⟨rfl, rfl, ?_⟩
  intro hJ
  obtain ⟨j, a, o, b, hij, hbin⟩ := hJ 1 "x" "L1" rfl
  have hj0 : j = 0 := by omega
  subst hj0
  have : ([.declare ("bool") ("x"), .ifFalse ("x") ("L1"),
      .label ("L1")] : List IRLine)[0]? = some (.declare ("bool") ("x")) := rfl
  rw [this] at hbin
  injection hbin with hb
  exact IRLine.noConfusion hb

/--
C3 (amended): for every AST that passes semantic analysis with zero
diagnostics AND in which every If condition is a RelOp node (`CondRel`
— the counterexample shows the analyzer alone does not enforce this,
since declared types are not validated), every IF_FALSE instruction in
the IR produced by `IRGenerator.generate` is immediately preceded by
the comparison instruction that computes the condition it tests, with
no instruction in between.
-/
theorem c3_amended_adjacency :
    ∀ (n m : Nat) (ast : Node) (code : List IRLine),
      SemanticAnalyzer.analyze n ast [] = some (.ok ("void", [])) →
      CondRel ast →
      IRGenerator.generate m ast = some (.ok code) →
      JifOk code := by
  intro n m ast code hsem hcr hgen
  unfold IRGenerator.generate at hgen
  split at hgen
  · simp at hgen
  · simp at hgen
  · rename_i v g heq
    simp only [Option.some.injEq, Except.ok.injEq] at hgen
    subst hgen
    exact irF_jif m (.one ast) ⟨[], 0, 0⟩ (v, g) heq hcr jifOk_nil

/-- Concrete semantically valid program with a RelOp condition, for
the C3 witness. -/
def c3ast : Node :=
  .program [.varDeclS ⟨"KEYWORD", "int", 1⟩ ⟨"ID", "a", 1⟩ none,
    .ifNode (.relOp (.idNode "a" 1) ⟨"OP_REL", ">", 1⟩ (.number ⟨"NUMBER", "0", 1⟩))
      (.blockS []) none]

/-- Witness for the amended C3 at a concrete valid program. -/
theorem c3_witness :
    IRGenerator.generate 20 c3ast =
      some (.ok [.declare ("int") ("a"), .binop ("t1") ("a") (">") ("0"),
        .ifFalse ("t1") ("L1"), .label ("L1")]) ∧
    JifOk [.declare ("int") ("a"), .binop ("t1") ("a") (">") ("0"),
        .ifFalse ("t1") ("L1"), .label ("L1")] :=
  ⟨rfl,
   c3_amended_adjacency 20 20 c3ast _ rfl
    (CondRel.program _ (by
      intro c hc
      simp only [List.mem_cons, List.mem_singleton, List.not_mem_nil, or_false] at hc
      rcases hc with rfl | rfl
      · exact CondRel.varDeclS _ _ _ (fun x hx => by cases hx)
      · exact CondRel.ifRel _ _ _ _ _ (CondRel.idNode _ _) (CondRel.number _)
          (CondRel.blockS _ (fun c hc => by cases hc)) (fun e he => by cases he)))
    rfl⟩

def valDigits (l : List Char) : Nat :=
  l.foldl (fun a c => 10 * a + (c.toNat - 48)) 0

theorem digitChar_toNat : ∀ k : Nat, k < 10 → (Nat.digitChar k).toNat - 48 = k := by
  intro k hk
  interval_cases k <;> rfl

theorem toDigitsCore_acc : ∀ (n : Nat) (fuel : Nat) (acc : List Char), n < fuel →
    Nat.toDigitsCore 10 fuel n acc = Nat.toDigitsCore 10 (n+1) n [] ++ acc := by
  intro n
  induction n using Nat.strong_induction_on with
  | _ n ih =>
    intro fuel acc hfuel
    cases fuel with
    | zero => omega
    | succ f =>
      rw [Nat.toDigitsCore]
      conv_rhs => rw [Nat.toDigitsCore]
      by_cases h10 : n / 10 = 0
      · simp only [h10, if_true]
        rfl
      · simp only [h10, if_false]
        have hlt : n / 10 < n := Nat.div_lt_self (by omega) (by omega)
        rw [ih (n / 10) hlt f _ (by omega)]
        rw [ih (n / 10) hlt n _ (by omega)]
        simp

theorem valDigits_toDigits : ∀ n : Nat, valDigits (Nat.toDigits 10 n) = n := by
  intro n
  induction n using Nat.strong_induction_on with
  | _ n ih =>
    rw [Nat.toDigits, Nat.toDigitsCore]
    by_cases h10 : n / 10 = 0
    · simp only [h10, if_true]
      have hn : n < 10 := by omega
      show valDigits [Nat.digitChar (n % 10)] = n
      unfold valDigits
      simp [List.foldl]
      rw [digitChar_toNat (n % 10) (Nat.mod_lt _ (by omega))]
      omega
    · simp only [h10, if_false]
      have hlt : n / 10 < n := Nat.div_lt_self (by omega) (by omega)
      rw [toDigitsCore_acc (n / 10) n _ (by omega)]
      show valDigits (Nat.toDigits 10 (n / 10) ++ [Nat.digitChar (n % 10)]) = n
      unfold valDigits
      rw [List.foldl_append]
      show 10 * valDigits (Nat.toDigits 10 (n / 10)) + ((Nat.digitChar (n % 10)).toNat - 48) = n
      rw [ih (n / 10) hlt]
      rw [digitChar_toNat (n % 10) (Nat.mod_lt _ (by omega))]
      omega

theorem natRepr_inj : ∀ m n : Nat, Nat.repr m = Nat.repr n → m = n := by
  intro m n h
  have hd : (Nat.toDigits 10 m) = (Nat.toDigits 10 n) := by
    have := congrArg String.data h
    simpa [Nat.repr, List.asString] using this
  have := congrArg valDigits hd
  rwa [valDigits_toDigits, valDigits_toDigits] at this

theorem mkLabel_inj : ∀ m n : Nat, mkLabel m = mkLabel n → m = n := by
  intro m n h
  apply natRepr_inj
  have := congrArg String.data h
  simp only [mkLabel, String.data_append] at this
  have h2 : (Nat.repr m).data = (Nat.repr n).data := by
    simpa using this
  cases hm : Nat.repr m
  cases hn : Nat.repr n
  simp [hm, hn] at h2
  simp [h2]

def irLabels (ins : IRLine) : List String :=
  match ins with
  | .ifFalse _ l => [l]
  | .goto l => [l]
  | .label l => [l]
  | _ => []

def FreshSeg (lo hi : Nat) (seg : List IRLine) : Prop :=
  ∀ ins ∈ seg, ∀ L ∈ irLabels ins, ∃ j, L = mkLabel j ∧ lo < j ∧ j ≤ hi

theorem freshSeg_nil (lo hi : Nat) : FreshSeg lo hi [] := by
  intro ins hins
  cases hins

theorem freshSeg_mono (lo hi lo' hi' : Nat) (seg : List IRLine)
    (h1 : lo' ≤ lo) (h2 : hi ≤ hi') (h : FreshSeg lo hi seg) : FreshSeg lo' hi' seg := by
  intro ins hins L hL
  obtain ⟨j, hj, hlo, hhi⟩ := h ins hins L hL
  exact ⟨j, hj, by omega, by omega⟩

theorem freshSeg_append (lo hi : Nat) (s1 s2 : List IRLine)
    (h1 : FreshSeg lo hi s1) (h2 : FreshSeg lo hi s2) : FreshSeg lo hi (s1 ++ s2) := by
  intro ins hins L hL
  rcases List.mem_append.mp hins with h | h
  · exact h1 ins h L hL
  · exact h2 ins h L hL

theorem freshSeg_noLabel (lo hi : Nat) (ins : IRLine) (h : irLabels ins = []) :
    FreshSeg lo hi [ins] := by
  intro i hi2 L hL
  simp at hi2
  subst hi2
  rw [h] at hL
  cases hL

theorem freshSeg_label (lo hi j : Nat) (ins : IRLine) (h : irLabels ins = [mkLabel j])
    (h1 : lo < j) (h2 : j ≤ hi) : FreshSeg lo hi [ins] := by
  intro i hi2 L hL
  simp at hi2
  subst hi2
  rw [h] at hL
  simp at hL
  exact ⟨j, hL, h1, h2⟩

theorem irF_fresh : ∀ (fuel : Nat) (inp : NodeCall) (g : Gen) (res : Option String × Gen),
    irF fuel inp g = some (.ok res) →
    g.label_count ≤ res.2.label_count ∧
    ∃ seg, res.2.ir = g.ir ++ seg ∧ FreshSeg g.label_count res.2.label_count seg := by
  intro fuel
  induction fuel using Nat.strong_induction_on with
  | _ n ih =>
  intro inp g res h
  cases n with
  | zero => simp [irF] at h
  | succ k =>
  have ihk : ∀ (inp : NodeCall) (g : Gen) (res : Option String × Gen),
      irF k inp g = some (.ok res) →
      g.label_count ≤ res.2.label_count ∧
      ∃ seg, res.2.ir = g.ir ++ seg ∧ FreshSeg g.label_count res.2.label_count seg :=
    fun inp g res h1 => ih k (by omega) inp g res h1
  cases inp with
  | many l =>
    cases l with
    | nil =>
      simp only [irF, Option.some.injEq, Except.ok.injEq] at h
      subst h
      exact ⟨le_refl _, [], by simp, freshSeg_nil _ _⟩
    | cons c cs =>
      simp only [irF] at h
      split at h
      · simp at h
      · simp at h
      · rename_i v1 g1 heq
        obtain ⟨hm1, s1, hs1, hf1⟩ := ihk (.one c) g (v1, g1) heq
        obtain ⟨hm2, s2, hs2, hf2⟩ := ihk (.many cs) g1 res h
        dsimp only at hm1 hs1 hf1
        refine ⟨by omega, s1 ++ s2, ?_, ?_⟩
        · rw [hs2, hs1, List.append_assoc]
        · exact freshSeg_append _ _ _ _
            (freshSeg_mono _ _ _ _ _ (le_refl _) (by omega) hf1)
            (freshSeg_mono _ _ _ _ _ (by omega) (le_refl _) hf2)
  | one nd =>
    cases nd with
    | number t =>
      simp only [irF, Option.some.injEq, Except.ok.injEq] at h
      subst h
      exact ⟨le_refl _, [], by simp, freshSeg_nil _ _⟩
    | idNode v l =>
      simp only [irF, Option.some.injEq, Except.ok.injEq] at h
      subst h
      exact ⟨le_refl _, [], by simp, freshSeg_nil _ _⟩
    | variableP t => simp [irF] at h
    | typeP t => simp [irF] at h
    | varDeclP a b c => simp [irF] at h
    | assignP a b c => simp [irF] at h
    | blockP cs => simp [irF] at h
    | blockS cs =>
      simp only [irF] at h
      split at h
      · simp at h
      · simp at h
      · rename_i v1 g1 heq
        simp only [Option.some.injEq, Except.ok.injEq] at h
        subst h
        obtain ⟨hm1, s1, hs1, hf1⟩ := ihk (.many cs) g (v1, g1) heq
        dsimp only at hm1 hs1 hf1
        exact ⟨hm1, s1, hs1, hf1⟩
    | program cs =>
      simp only [irF] at h
      split at h
      · simp at h
      · simp at h
      · rename_i v1 g1 heq
        simp only [Option.some.injEq, Except.ok.injEq] at h
        subst h
        obtain ⟨hm1, s1, hs1, hf1⟩ := ihk (.many cs) g (v1, g1) heq
        dsimp only at hm1 hs1 hf1
        exact ⟨hm1, s1, hs1, hf1⟩
    | varDeclS vt vn value =>
      cases value with
      | none =>
        simp only [irF, Option.some.injEq, Except.ok.injEq] at h
        subst h
        exact ⟨le_refl _, [.declare vt.value vn.value], rfl,
          freshSeg_noLabel _ _ _ rfl⟩
      | some v =>
        simp only [irF] at h
        split at h
        · simp at h
        · simp at h
        · rename_i src g2 heq
          simp only [Option.some.injEq, Except.ok.injEq] at h
          subst h
          obtain ⟨hm1, s1, hs1, hf1⟩ :=
            ihk (.one v) { g with ir := g.ir ++ [.declare vt.value vn.value] } (src, g2) heq
          dsimp only at hm1 hs1 hf1 ⊢
          refine ⟨by omega,
            [.declare vt.value vn.value] ++ s1 ++ [.assign vn.value (fmtOpt src)], ?_, ?_⟩
          · rw [hs1]
            simp [List.append_assoc]
          · refine freshSeg_append _ _ _ _ (freshSeg_append _ _ _ _ ?_ ?_) ?_
            · exact freshSeg_noLabel _ _ _ rfl
            · exact freshSeg_mono _ _ _ _ _ (le_refl _) (le_refl _) hf1
            · exact freshSeg_noLabel _ _ _ rfl
    | assignS vn value =>
      simp only [irF] at h
      split at h
      · simp at h
      · simp at h
      · rename_i src g1 heq
        simp only [Option.some.injEq, Except.ok.injEq] at h
        subst h
        obtain ⟨hm1, s1, hs1, hf1⟩ := ihk (.one value) g (src, g1) heq
        dsimp only at hm1 hs1 hf1 ⊢
        refine ⟨by omega, s1 ++ [.assign vn.value (fmtOpt src)], ?_, ?_⟩
        · rw [hs1]
          simp [List.append_assoc]
        · exact freshSeg_append _ _ _ _ hf1 (freshSeg_noLabel _ _ _ rfl)
    | binOp l op r =>
      simp only [irF] at h
      split at h
      · simp at h
      · simp at h
      · rename_i ls g1 heq1
        split at h
        · simp at h
        · simp at h
        · rename_i rs g2 heq2
          simp only [Option.some.injEq, Except.ok.injEq] at h
          subst h
          obtain ⟨hm1, s1, hs1, hf1⟩ := ihk (.one l) g (ls, g1) heq1
          obtain ⟨hm2, s2, hs2, hf2⟩ := ihk (.one r) g1 (rs, g2) heq2
          dsimp only at hm1 hs1 hf1 hm2 hs2 hf2 ⊢
          refine ⟨by omega,
            s1 ++ s2 ++ [.binop (mkTemp (g2.temp_count + 1)) (fmtOpt ls) op.value (fmtOpt rs)], ?_, ?_⟩
          · rw [hs2, hs1]
            simp [List.append_assoc]
          · refine freshSeg_append _ _ _ _ (freshSeg_append _ _ _ _ ?_ ?_) ?_
            · exact freshSeg_mono _ _ _ _ _ (le_refl _) (by omega) hf1
            · exact freshSeg_mono _ _ _ _ _ (by omega) (by omega) hf2
            · exact freshSeg_noLabel _ _ _ rfl
    | relOp l op r =>
      simp only [irF] at h
      split at h
      · simp at h
      · simp at h
      · rename_i ls g1 heq1
        split at h
        · simp at h
        · simp at h
        · rename_i rs g2 heq2
          simp only [Option.some.injEq, Except.ok.injEq] at h
          subst h
          obtain ⟨hm1, s1, hs1, hf1⟩ := ihk (.one l) g (ls, g1) heq1
          obtain ⟨hm2, s2, hs2, hf2⟩ := ihk (.one r) g1 (rs, g2) heq2
          dsimp only at hm1 hs1 hf1 hm2 hs2 hf2 ⊢
          refine ⟨by omega,
            s1 ++ s2 ++ [.binop (mkTemp (g2.temp_count + 1)) (fmtOpt ls) op.value (fmtOpt rs)], ?_, ?_⟩
          · rw [hs2, hs1]
            simp [List.append_assoc]
          · refine freshSeg_append _ _ _ _ (freshSeg_append _ _ _ _ ?_ ?_) ?_
            · exact freshSeg_mono _ _ _ _ _ (le_refl _) (by omega) hf1
            · exact freshSeg_mono _ _ _ _ _ (by omega) (by omega) hf2
            · exact freshSeg_noLabel _ _ _ rfl
    | ifNode cond tb eb =>
      cases eb with
      | none =>
        simp only [irF] at h
        split at h
        · simp at h
        · simp at h
        · rename_i cv g1 heqc
          split at h
          · simp at h
          · simp at h
          · rename_i vT gT heqT
            simp only [Option.some.injEq, Except.ok.injEq] at h
            subst h
            obtain ⟨hm1, s1, hs1, hf1⟩ := ihk (.one cond) g (cv, g1) heqc
            obtain ⟨hm2, s2, hs2, hf2⟩ := ihk (.one tb) _ (vT, gT) heqT
            dsimp only at hm1 hs1 hf1 hm2 hs2 hf2 ⊢
            refine ⟨by omega,
              s1 ++ [.ifFalse (fmtOpt cv) (mkLabel (g1.label_count + 1))] ++ s2 ++
                [.label (mkLabel (g1.label_count + 1))], ?_, ?_⟩
            · rw [hs2, hs1]
              simp [List.append_assoc]
            · refine freshSeg_append _ _ _ _ (freshSeg_append _ _ _ _
                (freshSeg_append _ _ _ _ ?_ ?_) ?_) ?_
              · exact freshSeg_mono _ _ _ _ _ (le_refl _) (by omega) hf1
              · exact freshSeg_label _ _ (g1.label_count + 1) _ rfl (by omega) (by omega)
              · exact freshSeg_mono _ _ _ _ _ (by omega) (by omega) hf2
              · exact freshSeg_label _ _ (g1.label_count + 1) _ rfl (by omega) (by omega)
      | some els =>
        simp only [irF] at h
        split at h
        · simp at h
        · simp at h
        · rename_i cv g1 heqc
          split at h
          · simp at h
          · simp at h
          · rename_i vT gT heqT
            split at h
            · simp at h
            · simp at h
            · rename_i vE gE heqE
              simp only [Option.some.injEq, Except.ok.injEq] at h
              subst h
              obtain ⟨hm1, s1, hs1, hf1⟩ := ihk (.one cond) g (cv, g1) heqc
              obtain ⟨hm2, s2, hs2, hf2⟩ := ihk (.one tb) _ (vT, gT) heqT
              obtain ⟨hm3, s3, hs3, hf3⟩ := ihk (.one els) _ (vE, gE) heqE
              dsimp only at hm1 hs1 hf1 hm2 hs2 hf2 hm3 hs3 hf3 ⊢
              refine ⟨by omega,
                s1 ++ [.ifFalse (fmtOpt cv) (mkLabel (g1.label_count + 2))] ++ s2 ++
                  [.goto (mkLabel (g1.label_count + 1)), .label (mkLabel (g1.label_count + 2))] ++
                  s3 ++ [.label (mkLabel (g1.label_count + 1))], ?_, ?_⟩
              · rw [hs3, hs2, hs1]
                simp [List.append_assoc]
              · refine freshSeg_append _ _ _ _ (freshSeg_append _ _ _ _ (freshSeg_append _ _ _ _
                  (freshSeg_append _ _ _ _ (freshSeg_append _ _ _ _ ?_ ?_) ?_) ?_) ?_) ?_
                · exact freshSeg_mono _ _ _ _ _ (le_refl _) (by omega) hf1
                · exact freshSeg_label _ _ (g1.label_count + 2) _ rfl (by omega) (by omega)
                · exact freshSeg_mono _ _ _ _ _ (by omega) (by omega) hf2
                · intro ins hins L hL
                  simp only [List.mem_cons, List.not_mem_nil, or_false] at hins
                  rcases hins with rfl | rfl
                  · simp only [irLabels, List.mem_singleton] at hL
                    exact ⟨g1.label_count + 1, hL, by omega, by omega⟩
                  · simp only [irLabels, List.mem_singleton] at hL
                    exact ⟨g1.label_count + 2, hL, by omega, by omega⟩
                · exact freshSeg_mono _ _ _ _ _ (by omega) (by omega) hf3
                · exact freshSeg_label _ _ (g1.label_count + 1) _ rfl (by omega) (by omega)

/-- Leaf nodes that `IRGenerator.visit` handles without emitting IR
(`visit_Number` and `visit_Id`). -/
def Node.isAtom : Node → Bool
  | .number _ => true
  | .idNode _ _ => true
  | _ => false

/-- The operand string such a leaf contributes to the IR. -/
def Node.atomVal : Node → String
  | .number t => t.value
  | .idNode v _ => v
  | _ => ""

theorem irF_atom (nd : Node) (h : nd.isAtom = true) (fuel : Nat) (g : Gen) :
    irF (fuel + 1) (.one nd) g = some (.ok (some nd.atomVal, g)) := by
  cases nd <;> simp_all [Node.isAtom, Node.atomVal, irF]

theorem irF_relOp_step (fuel : Nat) (l r : Node) (op : Token) (g : Gen) :
    irF (fuel + 1) (.one (.relOp l op r)) g =
      match irF fuel (.one l) g with
      | none => none
      | some (.error e) => some (.error e)
      | some (.ok (ls, g1)) =>
        match irF fuel (.one r) g1 with
        | none => none
        | some (.error e) => some (.error e)
        | some (.ok (rs, g2)) =>
          some (.ok (some (mkTemp (g2.temp_count + 1)),
            { g2 with temp_count := g2.temp_count + 1
                      ir := g2.ir ++ [.binop (mkTemp (g2.temp_count + 1)) (fmtOpt ls) op.value (fmtOpt rs)] })) := rfl

theorem irF_ifElse_step (fuel : Nat) (cond tb els : Node) (g : Gen) :
    irF (fuel + 1) (.one (.ifNode cond tb (some els))) g =
      match irF fuel (.one cond) g with
      | none => none
      | some (.error e) => some (.error e)
      | some (.ok (cv, g1)) =>
        match irF fuel (.one tb)
            { g1 with label_count := g1.label_count + 2
                      ir := g1.ir ++ [.ifFalse (fmtOpt cv) (mkLabel (g1.label_count + 2))] } with
        | none => none
        | some (.error e) => some (.error e)
        | some (.ok (_, g5)) =>
          match irF fuel (.one els)
              { g5 with ir := g5.ir ++ [.goto (mkLabel (g1.label_count + 1)),
                                        .label (mkLabel (g1.label_count + 2))] } with
          | none => none
          | some (.error e) => some (.error e)
          | some (.ok (_, g7)) =>
            some (.ok (none, { g7 with ir := g7.ir ++ [.label (mkLabel (g1.label_count + 1))] })) := rfl

theorem irF_relOp_atoms (n : Nat) (a b : Node) (op : Token) (g : Gen)
    (ha : a.isAtom = true) (hb : b.isAtom = true) :
    irF (n + 2) (.one (.relOp a op b)) g =
      some (.ok (some (mkTemp (g.temp_count + 1)),
        { g with temp_count := g.temp_count + 1
                 ir := g.ir ++ [.binop (mkTemp (g.temp_count + 1)) a.atomVal op.value b.atomVal] })) := by
  have hA := irF_atom a ha n g
  have hB := irF_atom b hb n g
  show irF ((n + 1) + 1) (.one (.relOp a op b)) g = _
  rw [irF_relOp_step (n + 1) a b op g, hA]
  dsimp only
  rw [hB]
  dsimp only [fmtOpt]

/-- Does this IR line reference label `L` as a jump target? -/
def IRLine.refsLab (L : String) : IRLine → Bool
  | .ifFalse _ l => l == L
  | .goto l => l == L
  | _ => false

/-- Does this IR line define label `L`? -/
def IRLine.defsLab (L : String) : IRLine → Bool
  | .label l => l == L
  | _ => false

theorem refsLab_mem (L : String) (ins : IRLine) (h : ins.refsLab L = true) :
    L ∈ irLabels ins := by
  cases ins with
  | ifFalse c l =>
    simp only [IRLine.refsLab, beq_iff_eq] at h
    simp [irLabels, h]
  | goto l =>
    simp only [IRLine.refsLab, beq_iff_eq] at h
    simp [irLabels, h]
  | declare a b => simp [IRLine.refsLab] at h
  | assign a b => simp [IRLine.refsLab] at h
  | binop a b c d => simp [IRLine.refsLab] at h
  | label l => simp [IRLine.refsLab] at h

theorem defsLab_mem (L : String) (ins : IRLine) (h : ins.defsLab L = true) :
    L ∈ irLabels ins := by
  cases ins with
  | label l =>
    simp only [IRLine.defsLab, beq_iff_eq] at h
    simp [irLabels, h]
  | goto l => simp [IRLine.defsLab] at h
  | ifFalse c l => simp [IRLine.defsLab] at h
  | declare a b => simp [IRLine.defsLab] at h
  | assign a b => simp [IRLine.defsLab] at h
  | binop a b c d => simp [IRLine.defsLab] at h

theorem freshSeg_countP (seg : List IRLine) (lo hi j : Nat) (p : IRLine → Bool)
    (h : FreshSeg lo hi seg) (hj : j ≤ lo ∨ hi < j)
    (hp : ∀ ins, p ins = true → mkLabel j ∈ irLabels ins) :
    seg.countP p = 0 := by
  rw [List.countP_eq_zero]
  intro ins hins hpi
  obtain ⟨j2, hj2, hlo, hhi⟩ := h ins hins _ (hp ins hpi)
  have := mkLabel_inj _ _ hj2
  omega

/-- C9: visiting `if (a > b) s1; else s2;` (an `If` node whose condition is a
RelOp over atomic numeric operands) from generator state `g` emits exactly one
comparison instruction, one IF_FALSE jump to the else label, the lowering of
the then branch, one GOTO to the end label, the else label, the lowering of
the else branch, and the final end label. The two labels are distinct from
each other, from every label already present in `g.ir`, and from every label
minted inside the two branch lowerings (the freshness bounds on `segT` and
`segE`), and in the resulting IR each label is the target of exactly one jump
and is defined by exactly one LABEL line. -/
theorem c9_if_else_lowering
    (n : Nat) (a b : Node) (op : Token) (tb eb : Node) (g : Gen)
    (vT : Option String) (gT : Gen) (vE : Option String) (gE : Gen)
    (ha : a.isAtom = true) (hb : b.isAtom = true)
    (hT : irF (n + 2) (.one tb)
        { g with temp_count := g.temp_count + 1
                 label_count := g.label_count + 2
                 ir := g.ir ++ [IRLine.binop (mkTemp (g.temp_count + 1)) a.atomVal op.value b.atomVal]
                       ++ [IRLine.ifFalse (mkTemp (g.temp_count + 1)) (mkLabel (g.label_count + 2))] }
      = some (.ok (vT, gT)))
    (hE : irF (n + 2) (.one eb)
        { gT with ir := gT.ir ++ [IRLine.goto (mkLabel (g.label_count + 1)),
                                  .label (mkLabel (g.label_count + 2))] }
      = some (.ok (vE, gE)))
    (hG : FreshSeg 0 g.label_count g.ir) :
    irF (n + 3) (.one (.ifNode (.relOp a op b) tb (some eb))) g
      = some (.ok (none, { gE with ir := gE.ir ++ [IRLine.label (mkLabel (g.label_count + 1))] })) ∧
    mkLabel (g.label_count + 2) ≠ mkLabel (g.label_count + 1) ∧
    (∃ segT segE,
      gE.ir ++ [IRLine.label (mkLabel (g.label_count + 1))]
        = g.ir
          ++ [IRLine.binop (mkTemp (g.temp_count + 1)) a.atomVal op.value b.atomVal]
          ++ [IRLine.ifFalse (mkTemp (g.temp_count + 1)) (mkLabel (g.label_count + 2))]
          ++ segT
          ++ [IRLine.goto (mkLabel (g.label_count + 1))]
          ++ [IRLine.label (mkLabel (g.label_count + 2))]
          ++ segE
          ++ [IRLine.label (mkLabel (g.label_count + 1))] ∧
      FreshSeg (g.label_count + 2) gT.label_count segT ∧
      FreshSeg gT.label_count gE.label_count segE) ∧
    (gE.ir ++ [IRLine.label (mkLabel (g.label_count + 1))]).countP
        (IRLine.refsLab (mkLabel (g.label_count + 2))) = 1 ∧
    (gE.ir ++ [IRLine.label (mkLabel (g.label_count + 1))]).countP
        (IRLine.refsLab (mkLabel (g.label_count + 1))) = 1 ∧
    (gE.ir ++ [IRLine.label (mkLabel (g.label_count + 1))]).countP
        (IRLine.defsLab (mkLabel (g.label_count + 2))) = 1 ∧
    (gE.ir ++ [IRLine.label (mkLabel (g.label_count + 1))]).countP
        (IRLine.defsLab (mkLabel (g.label_count + 1))) = 1 := by
  have hne : mkLabel (g.label_count + 2) ≠ mkLabel (g.label_count + 1) := by
    intro hh
    have := mkLabel_inj _ _ hh
    omega
  have hne2 : mkLabel (g.label_count + 1) ≠ mkLabel (g.label_count + 2) := fun hh => hne hh.symm
  obtain ⟨hmT, segT, hsT, hfT⟩ := irF_fresh (n + 2) (.one tb) _ (vT, gT) hT
  obtain ⟨hmE, segE, hsE, hfE⟩ := irF_fresh (n + 2) (.one eb) _ (vE, gE) hE
  try dsimp only at hmT hsT hfT hmE hsE hfE
  have hc := irF_relOp_atoms n a b op g ha hb
  have hmain : irF (n + 3) (.one (.ifNode (.relOp a op b) tb (some eb))) g
      = some (.ok (none, { gE with ir := gE.ir ++ [IRLine.label (mkLabel (g.label_count + 1))] })) := by
    show irF ((n + 2) + 1) (.one (.ifNode (.relOp a op b) tb (some eb))) g = _
    rw [irF_ifElse_step (n + 2) (.relOp a op b) tb eb g, hc]
    dsimp only [fmtOpt]
    try dsimp only at hT
    rw [hT]
    dsimp only
    try dsimp only at hE
    rw [hE]
  have hfinal : gE.ir ++ [IRLine.label (mkLabel (g.label_count + 1))]
      = g.ir
        ++ [IRLine.binop (mkTemp (g.temp_count + 1)) a.atomVal op.value b.atomVal]
        ++ [IRLine.ifFalse (mkTemp (g.temp_count + 1)) (mkLabel (g.label_count + 2))]
        ++ segT
        ++ [IRLine.goto (mkLabel (g.label_count + 1))]
        ++ [IRLine.label (mkLabel (g.label_count + 2))]
        ++ segE
        ++ [IRLine.label (mkLabel (g.label_count + 1))] := by
    rw [hsE, hsT]
    simp [List.append_assoc]
  refine ⟨hmain, hne, ⟨segT, segE, hfinal, hfT, hfE⟩, ?_, ?_, ?_, ?_⟩ <;>
    rw [hfinal] <;>
    simp only [List.countP_append,
      freshSeg_countP g.ir 0 g.label_count (g.label_count + 2)
        (IRLine.refsLab (mkLabel (g.label_count + 2))) hG (Or.inr (by omega))
        (fun ins h => refsLab_mem _ ins h),
      freshSeg_countP g.ir 0 g.label_count (g.label_count + 1)
        (IRLine.refsLab (mkLabel (g.label_count + 1))) hG (Or.inr (by omega))
        (fun ins h => refsLab_mem _ ins h),
      freshSeg_countP g.ir 0 g.label_count (g.label_count + 2)
        (IRLine.defsLab (mkLabel (g.label_count + 2))) hG (Or.inr (by omega))
        (fun ins h => defsLab_mem _ ins h),
      freshSeg_countP g.ir 0 g.label_count (g.label_count + 1)
        (IRLine.defsLab (mkLabel (g.label_count + 1))) hG (Or.inr (by omega))
        (fun ins h => defsLab_mem _ ins h),
      freshSeg_countP segT (g.label_count + 2) gT.label_count (g.label_count + 2)
        (IRLine.refsLab (mkLabel (g.label_count + 2))) hfT (Or.inl (by omega))
        (fun ins h => refsLab_mem _ ins h),
      freshSeg_countP segT (g.label_count + 2) gT.label_count (g.label_count + 1)
        (IRLine.refsLab (mkLabel (g.label_count + 1))) hfT (Or.inl (by omega))
        (fun ins h => refsLab_mem _ ins h),
      freshSeg_countP segT (g.label_count + 2) gT.label_count (g.label_count + 2)
        (IRLine.defsLab (mkLabel (g.label_count + 2))) hfT (Or.inl (by omega))
        (fun ins h => defsLab_mem _ ins h),
      freshSeg_countP segT (g.label_count + 2) gT.label_count (g.label_count + 1)
        (IRLine.defsLab (mkLabel (g.label_count + 1))) hfT (Or.inl (by omega))
        (fun ins h => defsLab_mem _ ins h),
      freshSeg_countP segE gT.label_count gE.label_count (g.label_count + 2)
        (IRLine.refsLab (mkLabel (g.label_count + 2))) hfE (Or.inl (by omega))
        (fun ins h => refsLab_mem _ ins h),
      freshSeg_countP segE gT.label_count gE.label_count (g.label_count + 1)
        (IRLine.refsLab (mkLabel (g.label_count + 1))) hfE (Or.inl (by omega))
        (fun ins h => refsLab_mem _ ins h),
      freshSeg_countP segE gT.label_count gE.label_count (g.label_count + 2)
        (IRLine.defsLab (mkLabel (g.label_count + 2))) hfE (Or.inl (by omega))
        (fun ins h => defsLab_mem _ ins h),
      freshSeg_countP segE gT.label_count gE.label_count (g.label_count + 1)
        (IRLine.defsLab (mkLabel (g.label_count + 1))) hfE (Or.inl (by omega))
        (fun ins h => defsLab_mem _ ins h)] <;>
    simp [List.countP_cons, IRLine.refsLab, IRLine.defsLab, hne, hne2]

theorem c9_witness :
    irF 3 (.one (.ifNode
        (.relOp (.idNode ("a") 1) ⟨("OP_REL"), (">"), 1⟩ (.number ⟨("NUMBER"), ("4"), 1⟩))
        (.assignS ⟨("ID"), ("x"), 1⟩ (.number ⟨("NUMBER"), ("1"), 1⟩))
        (some (.assignS ⟨("ID"), ("x"), 1⟩ (.number ⟨("NUMBER"), ("0"), 1⟩)))))
      ⟨[], 0, 0⟩
      = some (.ok (none, ⟨[
          .binop ("t1") ("a") (">") ("4"),
          .ifFalse ("t1") ("L2"),
          .assign ("x") ("1"),
          .goto ("L1"),
          .label ("L2"),
          .assign ("x") ("0"),
          .label ("L1")], 1, 2⟩)) :=
  (c9_if_else_lowering 0 (.idNode ("a") 1) (.number ⟨("NUMBER"), ("4"), 1⟩) ⟨("OP_REL"), (">"), 1⟩
    (.assignS ⟨("ID"), ("x"), 1⟩ (.number ⟨("NUMBER"), ("1"), 1⟩))
    (.assignS ⟨("ID"), ("x"), 1⟩ (.number ⟨("NUMBER"), ("0"), 1⟩))
    ⟨[], 0, 0⟩ none
    ⟨[.binop ("t1") ("a") (">") ("4"), .ifFalse ("t1") ("L2"), .assign ("x") ("1")], 1, 2⟩
    none
    ⟨[.binop ("t1") ("a") (">") ("4"), .ifFalse ("t1") ("L2"), .assign ("x") ("1"),
      .goto ("L1"), .label ("L2"), .assign ("x") ("0")], 1, 2⟩
    rfl rfl rfl rfl (freshSeg_nil 0 0)).1

def c1Src : String :=
  "int a; a = 3; int b; b = a + 2; if (b > 4) \x7b int c; c = 1; \x7d else \x7b int c; c = 0; \x7d"

/-- Token stream of the C1 round-trip source (checked against
`tokenize c1Src` in the final theorem). -/
def c1Toks : List Token :=
  [⟨"KEYWORD", "int", 1⟩, ⟨"ID", "a", 1⟩, ⟨"DELIM", ";", 1⟩,
   ⟨"ID", "a", 1⟩, ⟨"OP_ASSIGN", "=", 1⟩, ⟨"NUMBER", "3", 1⟩, ⟨"DELIM", ";", 1⟩,
   ⟨"KEYWORD", "int", 1⟩, ⟨"ID", "b", 1⟩, ⟨"DELIM", ";", 1⟩,
   ⟨"ID", "b", 1⟩, ⟨"OP_ASSIGN", "=", 1⟩, ⟨"ID", "a", 1⟩, ⟨"OP_ARITH", "+", 1⟩,
   ⟨"NUMBER", "2", 1⟩, ⟨"DELIM", ";", 1⟩,
   ⟨"KEYWORD", "if", 1⟩, ⟨"DELIM", "(", 1⟩, ⟨"ID", "b", 1⟩, ⟨"OP_REL", ">", 1⟩,
   ⟨"NUMBER", "4", 1⟩, ⟨"DELIM", ")", 1⟩, ⟨"DELIM", "\x7b", 1⟩,
   ⟨"KEYWORD", "int", 1⟩, ⟨"ID", "c", 1⟩, ⟨"DELIM", ";", 1⟩,
   ⟨"ID", "c", 1⟩, ⟨"OP_ASSIGN", "=", 1⟩, ⟨"NUMBER", "1", 1⟩, ⟨"DELIM", ";", 1⟩,
   ⟨"DELIM", "\x7d", 1⟩, ⟨"KEYWORD", "else", 1⟩, ⟨"DELIM", "\x7b", 1⟩,
   ⟨"KEYWORD", "int", 1⟩, ⟨"ID", "c", 1⟩, ⟨"DELIM", ";", 1⟩,
   ⟨"ID", "c", 1⟩, ⟨"OP_ASSIGN", "=", 1⟩, ⟨"NUMBER", "0", 1⟩, ⟨"DELIM", ";", 1⟩,
   ⟨"DELIM", "\x7d", 1⟩, ⟨"EOF", "EOF", 1⟩]

theorem parseF_statement_if (fuel : Nat) (s : PState)
    (h : ((Parser.cur s).value == "if") = true) :
    parseF (fuel + 1) .statementR s = parseF fuel .ifStmt s := by
  simp only [parseF, h, if_true]

theorem parseF_statement_block (fuel : Nat) (s : PState)
    (h1 : ((Parser.cur s).value == "if") = false)
    (h2 : ((Parser.cur s).value == "\x7b") = true) :
    parseF (fuel + 1) .statementR s = parseF fuel .blockR s := by
  simp only [parseF, h1, h2, Bool.false_eq_true, if_false, if_true]

theorem parseF_if_expr_none (fuel : Nat) (s : PState)
    (hexp : parseF fuel .expression
        (Parser.eat (Parser.eat s ("KEYWORD") (some ("if"))) ("DELIM") (some ("("))) = none) :
    parseF (fuel + 1) .ifStmt s = none := by
  simp only [parseF, hexp]

theorem parseF_if_stmt_none (fuel : Nat) (s sc : PState) (cond : Node)
    (hexp : parseF fuel .expression
        (Parser.eat (Parser.eat s ("KEYWORD") (some ("if"))) ("DELIM") (some ("("))) =
      some (.node cond, sc))
    (h1 : ((Parser.cur sc).value == ")") = true)
    (h2 : ((Parser.cur (Parser.eat sc ("DELIM") (some (")")))).value == ";") = false)
    (hstmt : parseF fuel .statementR (Parser.eat sc ("DELIM") (some (")"))) = none) :
    parseF (fuel + 1) .ifStmt s = none := by
  simp only [parseF, hexp, h1, h2, if_true, Bool.false_eq_true, if_false, hstmt]

theorem parseF_block_loop_none (fuel : Nat) (s : PState)
    (h : parseF fuel (.blockLoop []) (Parser.eat s ("DELIM") (some ("\x7b"))) = none) :
    parseF (fuel + 1) .blockR s = none := by
  simp only [parseF, h]

theorem parseF_blockLoop_stmt_none (fuel : Nat) (acc : List Node) (s : PState)
    (h1 : (Parser.cur s).value ≠ "\x7d") (h2 : (Parser.cur s).type ≠ "EOF")
    (hs : parseF fuel .statementR s = none) :
    parseF (fuel + 1) (.blockLoop acc) s = none := by
  simp only [parseF]
  rw [if_pos ⟨h1, h2⟩, hs]

theorem parseF_blockLoop_stmt (fuel : Nat) (acc : List Node) (s : PState) (nd : Node) (s2 : PState)
    (h1 : (Parser.cur s).value ≠ "\x7d") (h2 : (Parser.cur s).type ≠ "EOF")
    (hs : parseF fuel .statementR s = some (.node nd, s2)) :
    parseF (fuel + 1) (.blockLoop acc) s = parseF fuel (.blockLoop (acc ++ [nd])) s2 := by
  simp only [parseF]
  rw [if_pos ⟨h1, h2⟩, hs]

/-- Inside the block, `Parser.statement` is stuck at the declaration
keyword `int` (token 23): `block` never calls `declaration`, the
`primary` error path returns its placeholder without advancing, and
the missing-semicolon epilogue does not advance either, so a full
`statement` call leaves the position unchanged and only appends two
diagnostics. -/
theorem c1_stmt23 : ∀ (n : Nat) (errs : List PErr),
    parseF n .statementR ⟨c1Toks, 23, errs⟩ = none ∨
    ∃ nd e1 e2, parseF n .statementR ⟨c1Toks, 23, errs⟩ =
      some (.node nd, ⟨c1Toks, 23, errs ++ [e1] ++ [e2]⟩) := by
  intro n errs
  match n with
  | 0 => exact Or.inl rfl
  | 1 => exact Or.inl rfl
  | 2 => exact Or.inl rfl
  | 3 => exact Or.inl rfl
  | 4 => exact Or.inl rfl
  | 5 => exact Or.inl rfl
  | m+6 => exact Or.inr ⟨_, _, _, rfl⟩

/-- The block-body loop at token 23 never terminates. -/
theorem c1_blockLoop_div : ∀ (n : Nat) (acc : List Node) (errs : List PErr),
    parseF n (.blockLoop acc) ⟨c1Toks, 23, errs⟩ = none := by
  intro n
  induction n with
  | zero => intro acc errs; rfl
  | succ n ih =>
    intro acc errs
    rcases c1_stmt23 n errs with h | ⟨nd, e1, e2, h⟩
    · exact parseF_blockLoop_stmt_none n acc ⟨c1Toks, 23, errs⟩
        (show ("int" : String) ≠ ("\x7d") by decide)
        (show ("KEYWORD" : String) ≠ ("EOF") by decide) h
    · rw [parseF_blockLoop_stmt n acc ⟨c1Toks, 23, errs⟩ nd ⟨c1Toks, 23, errs ++ [e1] ++ [e2]⟩
        (show ("int" : String) ≠ ("\x7d") by decide)
        (show ("KEYWORD" : String) ≠ ("EOF") by decide) h]
      exact ih _ _

theorem c1_block22 : ∀ (n : Nat) (errs : List PErr),
    parseF n .blockR ⟨c1Toks, 22, errs⟩ = none := by
  intro n errs
  cases n with
  | zero => rfl
  | succ n => exact parseF_block_loop_none n _ (c1_blockLoop_div n [] errs)

theorem c1_stmt22 : ∀ (n : Nat) (errs : List PErr),
    parseF n .statementR ⟨c1Toks, 22, errs⟩ = none := by
  intro n errs
  cases n with
  | zero => rfl
  | succ n =>
    rw [parseF_statement_block n ⟨c1Toks, 22, errs⟩ rfl rfl]
    exact c1_block22 n errs

/-- The if-condition `b > 4` parses into a node (with one diagnostic:
`eat` expects token type OP but the lexer labels `>` as OP_REL) and
stops at the closing parenthesis, token 21. -/
theorem c1_expr18 : ∀ (n : Nat) (errs : List PErr),
    parseF n .expression ⟨c1Toks, 18, errs⟩ = none ∨
    ∃ nd e, parseF n .expression ⟨c1Toks, 18, errs⟩ =
      some (.node nd, ⟨c1Toks, 21, errs ++ [e]⟩) := by
  intro n errs
  match n with
  | 0 => exact Or.inl rfl
  | 1 => exact Or.inl rfl
  | 2 => exact Or.inl rfl
  | 3 => exact Or.inl rfl
  | 4 => exact Or.inl rfl
  | 5 => exact Or.inl rfl
  | m+6 => exact Or.inr ⟨_, _, rfl⟩

theorem c1_if16 : ∀ (n : Nat) (errs : List PErr),
    parseF n .ifStmt ⟨c1Toks, 16, errs⟩ = none := by
  intro n errs
  cases n with
  | zero => rfl
  | succ n =>
    rcases c1_expr18 n errs with h | ⟨nd, e, h⟩
    · exact parseF_if_expr_none n _ h
    · exact parseF_if_stmt_none n _ _ _ h rfl rfl (c1_stmt22 n (errs ++ [e]))

theorem c1_stmt16 : ∀ (n : Nat) (errs : List PErr),
    parseF n .statementR ⟨c1Toks, 16, errs⟩ = none := by
  intro n errs
  cases n with
  | zero => rfl
  | succ n =>
    rw [parseF_statement_if n ⟨c1Toks, 16, errs⟩ rfl]
    exact c1_if16 n errs

theorem c1_decl0 : ∀ (n : Nat) (errs : List PErr),
    parseF n .declarationR ⟨c1Toks, 0, errs⟩ = none ∨
    ∃ ds, parseF n .declarationR ⟨c1Toks, 0, errs⟩ = some (.decls ds, ⟨c1Toks, 3, errs⟩) := by
  intro n errs
  match n with
  | 0 => exact Or.inl rfl
  | 1 => exact Or.inl rfl
  | m+2 => exact Or.inr ⟨_, rfl⟩

set_option maxHeartbeats 4000000 in
set_option maxRecDepth 8192 in
/-- The statement `a = 3;` parses with one diagnostic (`eat` expects
OP but `=` is lexed as OP_ASSIGN) and ends at token 7. -/
theorem c1_stmt3 : ∀ (n : Nat) (errs : List PErr),
    parseF n .statementR ⟨c1Toks, 3, errs⟩ = none ∨
    ∃ nd e, parseF n .statementR ⟨c1Toks, 3, errs⟩ =
      some (.node nd, ⟨c1Toks, 7, errs ++ [e]⟩) := by
  intro n errs
  match n with
  | 0 => exact Or.inl rfl
  | 1 => exact Or.inl rfl
  | 2 => exact Or.inl rfl
  | 3 => exact Or.inl rfl
  | 4 => exact Or.inl rfl
  | 5 => exact Or.inl rfl
  | 6 => exact Or.inl rfl
  | m+7 => exact Or.inr ⟨_, _, rfl⟩

set_option maxHeartbeats 4000000 in
set_option maxRecDepth 8192 in
theorem c1_decl7 : ∀ (n : Nat) (errs : List PErr),
    parseF n .declarationR ⟨c1Toks, 7, errs⟩ = none ∨
    ∃ ds, parseF n .declarationR ⟨c1Toks, 7, errs⟩ = some (.decls ds, ⟨c1Toks, 10, errs⟩) := by
  intro n errs
  match n with
  | 0 => exact Or.inl rfl
  | 1 => exact Or.inl rfl
  | m+2 => exact Or.inr ⟨_, rfl⟩

theorem parseF_statement_expr_none (fuel : Nat) (s : PState)
    (hs : parseF fuel .expression s = none)
    (h1 : ((Parser.cur s).value == "if") = false)
    (h2 : ((Parser.cur s).value == "\x7b") = false) :
    parseF (fuel + 1) .statementR s = none := by
  simp only [parseF, h1, h2, hs, Bool.false_eq_true, if_false]

theorem parseF_statement_expr (fuel : Nat) (s : PState) (nd : Node) (s1 : PState)
    (hs : parseF fuel .expression s = some (.node nd, s1))
    (h1 : ((Parser.cur s).value == "if") = false)
    (h2 : ((Parser.cur s).value == "\x7b") = false) :
    parseF (fuel + 1) .statementR s =
      some (.node nd, Parser.semiEpilogue ("statement") ("expression statement") s1) := by
  simp only [parseF, h1, h2, hs, Bool.false_eq_true, if_false]

theorem parseF_expression_assign_none (fuel : Nat) (s : PState)
    (h1 : (((Parser.cur s).type == "ID") &&
      ((s.tokens.getD (s.pos + 1) default).value == "=")) = true)
    (hs : parseF fuel .expression
        (Parser.eat (Parser.eat s ("ID") none) ("OP") (some ("="))) = none) :
    parseF (fuel + 1) .expression s = none := by
  simp only [parseF, Parser.variableFn, h1, if_true, hs]

theorem parseF_expression_assign (fuel : Nat) (s : PState) (nd : Node) (s3 : PState)
    (h1 : (((Parser.cur s).type == "ID") &&
      ((s.tokens.getD (s.pos + 1) default).value == "=")) = true)
    (hs : parseF fuel .expression
        (Parser.eat (Parser.eat s ("ID") none) ("OP") (some ("="))) = some (.node nd, s3)) :
    parseF (fuel + 1) .expression s =
      some (.node (.assignP (.variableP (Parser.cur s))
        (Parser.cur (Parser.eat s ("ID") none)) nd), s3) := by
  simp only [parseF, Parser.variableFn, h1, if_true, hs]

/-- The right-hand side `a + 2` of the second assignment parses into a
node (with one diagnostic: `eat` expects OP but `+` is lexed as
OP_ARITH) and stops at the semicolon, token 15. -/
theorem c1_expr12 : ∀ (n : Nat) (errs : List PErr),
    parseF n .expression ⟨c1Toks, 12, errs⟩ = none ∨
    ∃ nd e, parseF n .expression ⟨c1Toks, 12, errs⟩ =
      some (.node nd, ⟨c1Toks, 15, errs ++ [e]⟩) := by
  intro n errs
  match n with
  | 0 => exact Or.inl rfl
  | 1 => exact Or.inl rfl
  | 2 => exact Or.inl rfl
  | 3 => exact Or.inl rfl
  | 4 => exact Or.inl rfl
  | 5 => exact Or.inl rfl
  | m+6 => exact Or.inr ⟨_, _, rfl⟩

/-- The expression `b = a + 2` (starting at token 10) parses into an
Assign node with two diagnostics (`=` and `+` are OP_ASSIGN and
OP_ARITH, not the expected OP) and stops at the semicolon, token 15. -/
theorem c1_expr10 : ∀ (n : Nat) (errs : List PErr),
    parseF n .expression ⟨c1Toks, 10, errs⟩ = none ∨
    ∃ nd e1 e2, parseF n .expression ⟨c1Toks, 10, errs⟩ =
      some (.node nd, ⟨c1Toks, 15, errs ++ [e1] ++ [e2]⟩) := by
  intro n errs
  cases n with
  | zero => exact Or.inl rfl
  | succ n =>
    rcases c1_expr12 n
        ((Parser.eat (Parser.eat ⟨c1Toks, 10, errs⟩ ("ID") none) ("OP") (some ("="))).errors)
      with h | ⟨nd, e, h⟩
    · exact Or.inl (parseF_expression_assign_none n ⟨c1Toks, 10, errs⟩ rfl h)
    · exact Or.inr ⟨_, _, _, parseF_expression_assign n ⟨c1Toks, 10, errs⟩ nd _ rfl h⟩

/-- The statement `b = a + 2;` parses with two diagnostics and ends at
token 16 (past the semicolon). -/
theorem c1_stmt10 : ∀ (n : Nat) (errs : List PErr),
    parseF n .statementR ⟨c1Toks, 10, errs⟩ = none ∨
    ∃ nd e1 e2, parseF n .statementR ⟨c1Toks, 10, errs⟩ =
      some (.node nd, ⟨c1Toks, 16, errs ++ [e1] ++ [e2]⟩) := by
  intro n errs
  cases n with
  | zero => exact Or.inl rfl
  | succ n =>
    rcases c1_expr10 n errs with h | ⟨nd, e1, e2, h⟩
    · exact Or.inl (parseF_statement_expr_none n _ h rfl rfl)
    · refine Or.inr ⟨nd, e1, e2, ?_⟩
      rw [parseF_statement_expr n ⟨c1Toks, 10, errs⟩ nd _ h rfl rfl]
      rfl

theorem c1_prog16 : ∀ (n : Nat) (acc : List Node) (errs : List PErr),
    parseF n (.programR acc) ⟨c1Toks, 16, errs⟩ = none := by
  intro n acc errs
  cases n with
  | zero => rfl
  | succ n => exact parseF_program_stmt_none n acc _ (c1_stmt16 n errs) rfl rfl

theorem c1_prog10 : ∀ (n : Nat) (acc : List Node) (errs : List PErr),
    parseF n (.programR acc) ⟨c1Toks, 10, errs⟩ = none := by
  intro n acc errs
  cases n with
  | zero => rfl
  | succ n =>
    rcases c1_stmt10 n errs with h | ⟨nd, e1, e2, h⟩
    · exact parseF_program_stmt_none n acc _ h rfl rfl
    · rw [parseF_program_stmt n acc _ _ _ h rfl rfl]
      exact c1_prog16 n _ _

theorem c1_prog7 : ∀ (n : Nat) (acc : List Node) (errs : List PErr),
    parseF n (.programR acc) ⟨c1Toks, 7, errs⟩ = none := by
  intro n acc errs
  cases n with
  | zero => rfl
  | succ n =>
    rcases c1_decl7 n errs with h | ⟨ds, h⟩
    · exact parseF_program_decl_none n acc _ h rfl rfl
    · rw [parseF_program_decl n acc _ _ _ h rfl rfl]
      exact c1_prog10 n _ _

theorem c1_prog3 : ∀ (n : Nat) (acc : List Node) (errs : List PErr),
    parseF n (.programR acc) ⟨c1Toks, 3, errs⟩ = none := by
  intro n acc errs
  cases n with
  | zero => rfl
  | succ n =>
    rcases c1_stmt3 n errs with h | ⟨nd, e, h⟩
    · exact parseF_program_stmt_none n acc _ h rfl rfl
    · rw [parseF_program_stmt n acc _ _ _ h rfl rfl]
      exact c1_prog7 n _ _

theorem c1_prog0 : ∀ (n : Nat) (acc : List Node) (errs : List PErr),
    parseF n (.programR acc) ⟨c1Toks, 0, errs⟩ = none := by
  intro n acc errs
  cases n with
  | zero => rfl
  | succ n =>
    rcases c1_decl0 n errs with h | ⟨ds, h⟩
    · exact parseF_program_decl_none n acc _ h rfl rfl
    · rw [parseF_program_decl n acc _ _ _ h rfl rfl]
      exact c1_prog3 n _ _

set_option maxHeartbeats 4000000 in
set_option maxRecDepth 16384 in
/--
C1 (code bug): the round-trip scenario never gets past the parser.
The claim (and the spec) require its source program to parse with zero
diagnostics, but on that very source `Parser.parse` does not terminate
at any fuel: `eat` is called with token type OP while the lexer labels
`=`, `+` and `>` as OP_ASSIGN, OP_ARITH and OP_REL (so each operator
already costs a diagnostic), and inside the braced block the
declaration `int c;` is unreachable for `statement` — `block` never
calls `declaration`, the `primary` error path returns its placeholder
without advancing, and the missing-semicolon epilogue does not advance
either, so the block loop re-enters `statement` at token 23 forever.
The lexer itself produces the expected 42-token stream with no lexer
diagnostics.
-/
theorem c1_roundtrip_diverges :
    tokenize c1Src = (c1Toks, []) ∧
    ∀ n : Nat, Parser.parse n c1Toks = none := by
  constructor
  · rfl
  · intro n
    cases n with
    | zero => rfl
    | succ n => simp only [Parser.parse, c1_prog0]
